import Mathlib

/-!
# climate.c : per-state aggregation of NOAA climate records

A shallow embedding of `climate.c`.

Modelling conventions.

* `long double` / `double` values are exact rationals (`ℚ`); `1.8` is `9/5` and `459.67` is
  `45967/100`.
* C strings are `List Char`; the terminating NUL is the character with code 0.
* `int` values are reduced to 32 bits (two's complement): the result of `atoi`, and the snow
  and lightning counters after each addition.  A floating value out of the range of `int` is
  converted to `INT_MIN`, as on x86-64.  The record counter (`unsigned long`) is not reduced:
  it would need `2^64` records to overflow.
* A field of type `long double` holds a rational: a text that `atof` reads as an infinity or a
  NaN has no value in the model (`atof` gives 0 for it, `atof_parts` tells it apart).
* `malloc` does not initialise the block it returns.  The previous content of the block is an
  explicit argument `mem`; every field that `create_state` does not assign keeps the value it has
  in `mem`.
* Reading an uninitialised `tokens[k]` is undefined behaviour and is modelled by `none`.
* Files are given by their content; `fopen` always succeeds.  What `print_report` prints is
  modelled for the list of region codes only.
-/

namespace Climate

/-! ## Data model -/

/-- The constant `NUM_STATES` (climate.c:69). -/
def NUM_STATES : Nat := 50

/-- The record `struct climate_info` (climate.c:72-104); `code` is the content of
`char code[3]`. -/
structure climate_info where
  code : List Char
  num_records : Nat
  humidity : ℚ
  avg_humidity : ℚ
  snow : Int
  cloudcov : ℚ
  avg_cloudcov : ℚ
  lightning : Int
  pressure : ℚ
  temp : ℚ
  avg_temp : ℚ
  max_temp : ℚ
  min_temp : ℚ
  time : Int
  max_time : Int
  min_time : Int
deriving DecidableEq

/-- The array `struct climate_info *states[]`: a slot is `NULL` (`none`) or points to a record. -/
abbrev States := List (Option climate_info)

/-! ## The C library functions used by the program -/

/-- The NUL character that ends a C string. -/
def NUL : Char := Char.ofNat 0

/-- The C string stored in a character array: the characters before the first NUL. -/
def cstr (s : List Char) : List Char := s.takeWhile (fun c => c != NUL)

/-- The function `isspace` in the C locale. -/
def isspace (c : Char) : Bool :=
  c.toNat == 32 || (9 ≤ c.toNat && c.toNat ≤ 13)

/-- Lexicographic comparison of two character lists, as `strcmp` does after the common prefix. -/
def strcmp_chars : List Char → List Char → Int
  | [], [] => 0
  | [], _ :: _ => -1
  | _ :: _, [] => 1
  | a :: as, b :: bs => if a = b then strcmp_chars as bs else if a.toNat < b.toNat then -1 else 1

/-- The function `strcmp`: zero exactly when the two C strings are equal. -/
def strcmp (a b : List Char) : Int := strcmp_chars (cstr a) (cstr b)

/-- The function `strncpy (dest, src, n)`: the first `n` bytes of `dest` become the first `n`
characters of the C string `src`, padded with NUL; the rest of `dest` is unchanged. -/
def strncpy (dest src : List Char) (n : Nat) : List Char :=
  let s := (cstr src).take n
  s ++ List.replicate (n - s.length) NUL ++ dest.drop n

/-- Value of a run of decimal digits. -/
def digits_value (ds : List Char) : Nat :=
  ds.foldl (fun acc c => 10 * acc + (c.toNat - '0'.toNat)) 0

/-- An optional sign in front of a number: whether it is negative, and the text after it. -/
def read_sign : List Char → Bool × List Char
  | '-' :: r => (true, r)
  | '+' :: r => (false, r)
  | s => (false, s)

/-- Reduction of an integer to the range of a 32-bit `int`. -/
def to_int32 (z : Int) : Int := (z + 2 ^ 31) % 2 ^ 32 - 2 ^ 31

/-- The values of type `int`. -/
def is_int (z : Int) : Prop := -(2 ^ 31) ≤ z ∧ z < 2 ^ 31

/-- The function `strtol (s, NULL, 10)` with a 64-bit `long`: leading white space, an optional
sign, a run of digits; the result is clamped to the range of `long`. -/
def strtol (s : List Char) : Int :=
  let s1 := s.dropWhile isspace
  let (neg, s2) := read_sign s1
  let v : Int := (digits_value (s2.takeWhile Char.isDigit) : Nat)
  let r : Int := if neg then -v else v
  max (-(2 ^ 63)) (min r (2 ^ 63 - 1))

/-- The function `atoi`, as in glibc: `(int) strtol (s, NULL, 10)`. -/
def atoi (s : List Char) : Int := to_int32 (strtol s)

/-- The exponent part of a decimal floating-point text: `e` or `E`, an optional sign and at least
one digit; `0` when there is no exponent part. -/
def read_exponent : List Char → Int
  | c :: r =>
    if c = 'e' ∨ c = 'E' then
      let (neg, r1) := read_sign r
      let ds := r1.takeWhile Char.isDigit
      let v : Int := (digits_value ds : Nat)
      if neg then -v else v
    else 0
  | [] => 0

/-- The binary exponent part of a hexadecimal floating-point text: `p` or `P`, an optional sign
and at least one digit; `0` when there is no exponent part. -/
def read_exponent_p : List Char → Int
  | c :: r =>
    if c = 'p' ∨ c = 'P' then
      let (neg, r1) := read_sign r
      let ds := r1.takeWhile Char.isDigit
      let v : Int := (digits_value ds : Nat)
      if neg then -v else v
    else 0
  | [] => 0

/-- Whether a character is a hexadecimal digit. -/
def is_hex_digit (c : Char) : Bool :=
  c.isDigit || (97 ≤ c.toNat && c.toNat ≤ 102) || (65 ≤ c.toNat && c.toNat ≤ 70)

/-- Value of a hexadecimal digit. -/
def hex_digit_value (c : Char) : Nat :=
  if c.isDigit then c.toNat - 48 else if 97 ≤ c.toNat then c.toNat - 87 else c.toNat - 55

/-- Value of a run of hexadecimal digits. -/
def hex_digits_value (ds : List Char) : Nat :=
  ds.foldl (fun acc c => 16 * acc + hex_digit_value c) 0

/-- What `strtod` reads at the start of a text: a decimal number (sign, digits of the integer
and fraction parts taken together, and the power of ten that scales them), a hexadecimal number
(sign, hexadecimal digits taken together, and the power of two that scales them), an infinity
or a NaN. -/
inductive strtod_text where
  | decimal (neg : Bool) (m : Nat) (e : Int)
  | hexadecimal (neg : Bool) (m : Nat) (e : Int)
  | infinity (neg : Bool)
  | not_a_number
deriving DecidableEq

/-- The hexadecimal number that starts the text after the sign, if there is one: `0x` or `0X`,
hexadecimal digits with an optional point (at least one digit), an optional binary exponent. -/
def hex_parts (neg : Bool) : List Char → Option strtod_text
  | z :: x :: r =>
    if z = '0' ∧ (x = 'x' ∨ x = 'X') then
      let ip := r.takeWhile is_hex_digit
      let r3 := r.dropWhile is_hex_digit
      let fp := match r3 with
        | '.' :: t => t.takeWhile is_hex_digit
        | _ => []
      let r4 := match r3 with
        | '.' :: t => t.dropWhile is_hex_digit
        | _ => r3
      if ip = [] ∧ fp = [] then none
      else some (.hexadecimal neg (hex_digits_value (ip ++ fp))
        (read_exponent_p r4 - 4 * (fp.length : Int)))
    else none
  | _ => none

/-- The infinity or NaN that starts the text after the sign, if there is one: the letters `inf`
or `nan`, in upper or lower case. -/
def special_parts (neg : Bool) (s : List Char) : Option strtod_text :=
  if (s.take 3).map Char.toLower = ['i', 'n', 'f'] then some (.infinity neg)
  else if (s.take 3).map Char.toLower = ['n', 'a', 'n'] then some .not_a_number
  else none

/-- The decimal number that starts the text after the sign, if there is one: digits with an
optional point (at least one digit), an optional exponent. -/
def decimal_parts (neg : Bool) (s2 : List Char) : Option strtod_text :=
  let ip := s2.takeWhile Char.isDigit
  let s3 := s2.dropWhile Char.isDigit
  let fp := match s3 with
    | '.' :: r => r.takeWhile Char.isDigit
    | _ => []
  let s4 := match s3 with
    | '.' :: r => r.dropWhile Char.isDigit
    | _ => s3
  if ip = [] ∧ fp = [] then none
  else some (.decimal neg (digits_value (ip ++ fp)) (read_exponent s4 - (fp.length : Int)))

/-- The text read by `atof` (`strtod`): leading white space, an optional sign, then a
hexadecimal number, an infinity, a NaN or a decimal number.  `none` when none of these starts
the text. -/
def atof_parts (s : List Char) : Option strtod_text :=
  let s1 := s.dropWhile isspace
  let (neg, s2) := read_sign s1
  match hex_parts neg s2 with
  | some r => some r
  | none =>
    match special_parts neg s2 with
    | some r => some r
    | none => decimal_parts neg s2

/-- The rational denoted by a sign, a natural number and a power of ten. -/
def decimal_to_rat (neg : Bool) (m : Nat) (e : Int) : ℚ :=
  let v : ℚ :=
    if 0 ≤ e then (m : ℚ) * (10 ^ e.toNat : Nat) else (m : ℚ) / (10 ^ (-e).toNat : Nat)
  if neg then -v else v

/-- The rational denoted by a sign, a natural number and a power of two. -/
def binary_to_rat (neg : Bool) (m : Nat) (e : Int) : ℚ :=
  let v : ℚ :=
    if 0 ≤ e then (m : ℚ) * (2 ^ e.toNat : Nat) else (m : ℚ) / (2 ^ (-e).toNat : Nat)
  if neg then -v else v

/-- The function `atof`: the value of the number that starts the text, `0` when no number
starts it.  An infinity or a NaN has no rational value; the floating fields of the records are
rationals, so such a text is read as `0` here and is told apart by `atof_parts`. -/
def atof (s : List Char) : ℚ :=
  match atof_parts s with
  | some (.decimal neg m e) => decimal_to_rat neg m e
  | some (.hexadecimal neg m e) => binary_to_rat neg m e
  | _ => 0

/-- Conversion of a floating value to `int`: the fraction is dropped (truncation towards 0); a
value whose integer part is out of the range of `int` gives `INT_MIN`, as the conversion does on
x86-64. -/
def double_to_int (q : ℚ) : Int :=
  let t : Int := if 0 ≤ q then ⌊q⌋ else ⌈q⌉
  if -(2 ^ 31) ≤ t ∧ t < 2 ^ 31 then t else -(2 ^ 31)

/-- The conversion `(int) atof (s)` of the assignments to the `int` fields: an infinity or a
NaN gives `INT_MIN`, as the conversion does on x86-64. -/
def atof_to_int (s : List Char) : Int :=
  match atof_parts s with
  | some (.infinity _) => -(2 ^ 31)
  | some .not_a_number => -(2 ^ 31)
  | _ => double_to_int (atof s)

/-- One call `strtok (s, "\t")` on the unread text `s`: leading tabs are skipped; `none` when
nothing is left, else the token up to the next tab and the unread text after that tab. -/
def strtok (s : List Char) : Option (List Char × List Char) :=
  let s1 := (cstr s).dropWhile (fun c => c == '\t')
  if s1 = [] then none
  else some (s1.takeWhile (fun c => c != '\t'), (s1.dropWhile (fun c => c != '\t')).drop 1)

/-! ## The program -/

/-- The function `create_state` (climate.c:153-168).  `mem` is the content of the block returned
by `malloc`; the fields that are not assigned (`num_records`, the three averages, `max_temp`,
`min_temp`, `max_time`, `min_time` and `code[2]`) keep their value in `mem`.  `tokens` holds the
entries of `tokens[]` that were assigned; reading another entry gives `none`. -/
def create_state (mem : climate_info) (tokens : List (List Char)) (_tokenIndex : Nat) :
    Option climate_info := do
  let t0 ← tokens[0]?
  let t1 ← tokens[1]?
  let t3 ← tokens[3]?
  let t4 ← tokens[4]?
  let t5 ← tokens[5]?
  let t6 ← tokens[6]?
  let t7 ← tokens[7]?
  let t8 ← tokens[8]?
  some { mem with
    code := strncpy mem.code t0 2
    time := Int.tdiv (atoi t1) 1000
    humidity := atof t3
    snow := atof_to_int t4
    cloudcov := atof t5
    lightning := atof_to_int t6
    pressure := atof t7
    temp := atof t8 * (9 / 5) - 45967 / 100 }

/-- The loop `while (token != NULL && index < 9)` of `state_tokens` (climate.c:173-181) with `n`
free entries left in `tokens[]` (`n = 9 - index`), on the text that `strtok` has not read yet:
the tokens stored in `tokens[index ..]`. -/
def state_tokens_while : Nat → List Char → List (List Char)
  | 0, _ => []
  | n + 1, s =>
    match strtok s with
    | none => []
    | some (token, rest) => token :: state_tokens_while n rest

/-- The function `state_tokens` (climate.c:171-185). -/
def state_tokens (mem : climate_info) (line : List Char) : Option climate_info :=
  let tokens := state_tokens_while 9 line
  create_state mem tokens tokens.length

/-- The function `add_state` (climate.c:189-198): a `NULL` slot receives the record, whose
`num_records` becomes 1; nothing else is assigned. -/
def add_state (states : States) (state : climate_info) (index : Nat) : States :=
  match states[index]? with
  | some none => states.set index (some { state with num_records := 1 })
  | _ => states

/-- The body of `add_stateinfo` (climate.c:203-245) on the record `s = *states[index]`. -/
def add_stateinfo_record (s state : climate_info) : climate_info :=
  let max_temp := state.temp
  let min_temp := state.temp
  let s := { s with num_records := s.num_records + 1 }
  let s := { s with humidity := s.humidity + state.humidity }
  let s := { s with avg_humidity := s.humidity / s.num_records }
  let s := { s with snow := to_int32 (s.snow + state.snow) }
  let s := { s with cloudcov := s.cloudcov + state.cloudcov }
  let s := { s with avg_cloudcov := s.cloudcov / s.num_records }
  let s := { s with lightning := to_int32 (s.lightning + state.lightning) }
  let s := { s with pressure := s.pressure + state.pressure }
  let s := { s with temp := s.temp + state.temp }
  let s := { s with avg_temp := s.temp / s.num_records }
  let s := if max_temp > s.max_temp then
      { s with max_temp := state.temp, max_time := state.time } else s
  let s := if min_temp < s.min_temp then
      { s with min_temp := state.temp, min_time := state.time } else s
  s

/-- The function `add_stateinfo` (climate.c:201-247).  It is only called on an occupied slot. -/
def add_stateinfo (states : States) (state : climate_info) (index : Nat) : States :=
  match states[index]? with
  | some (some s) => states.set index (some (add_stateinfo_record s state))
  | _ => states

/-- The loop `for (int i = 0; i < num_states; i++)` of `analyze_file` (climate.c:265-280),
entered at index `i` with `n = num_states - i` iterations left. -/
def analyze_file_for (states : States) (state : climate_info) : Nat → Nat → States
  | 0, _ => states
  | n + 1, i =>
    match states[i]? with
    | some none => add_state states state i
    | some (some s) =>
      if strcmp s.code state.code = 0 then add_stateinfo states state i
      else analyze_file_for states state n (i + 1)
    | none => states

/-- The successive results of `fgets (line, line_sz, file)` (climate.c:256): `cur` is the part of
the current line that has been read; a line ends after a newline, or when `line_sz - 1`
characters are in the buffer, or at the end of the file. -/
def fgets_lines (line_sz : Nat) : List Char → List Char → List (List Char)
  | [], cur => if cur = [] then [] else [cur]
  | c :: cs, cur =>
    if c = '\n' ∨ cur.length + 2 = line_sz then (cur ++ [c]) :: fgets_lines line_sz cs []
    else fgets_lines line_sz cs (cur ++ [c])

/-- The body of the loop `while (fgets (...) != NULL)` of `analyze_file` (climate.c:256-282) over
the lines read; `heap k` is the content of the block that `malloc` returns for the `k`-th line.
The result is `none` when a line makes `create_state` read an unassigned token. -/
def analyze_file_while (heap : Nat → climate_info) (num_states : Nat) :
    Nat → List (List Char) → States → Option States
  | _, [], states => some states
  | k, line :: rest, states =>
    match state_tokens (heap k) line with
    | none => none
    | some state =>
      analyze_file_while heap num_states (k + 1) rest (analyze_file_for states state num_states 0)

/-- The function `analyze_file` (climate.c:250-284) on the content of the file. -/
def analyze_file (heap : Nat → climate_info) (file : List Char) (states : States)
    (num_states : Nat) : Option States :=
  analyze_file_while heap num_states 0 (fgets_lines 100 file []) states

/-- The table of `main` before any file is read: `states[NUM_STATES] = {NULL}`
(climate.c:120). -/
def empty_states : States := List.replicate NUM_STATES none

/-- One record folded into the table as `main` has it done: the loop of `analyze_file` with
`num_states = NUM_STATES`, from index 0. -/
def ingest (states : States) (state : climate_info) : States :=
  analyze_file_for states state NUM_STATES 0

/-- A sequence of records folded into the table, in order. -/
def ingest_all (states : States) (obs : List climate_info) : States :=
  obs.foldl ingest states

/-- The search that the loop of `analyze_file` makes for a region code: slots are visited in
order, the search stops without an entry at the first `NULL` slot, and ends on the first record
whose code compares equal. -/
def find_state : States → List Char → Option climate_info
  | [], _ => none
  | none :: _, _ => none
  | some s :: rest, code => if strcmp s.code code = 0 then some s else find_state rest code

/-- A block of memory filled with zero bytes. -/
def zero_mem : climate_info :=
  { code := [NUL, NUL, NUL], num_records := 0, humidity := 0, avg_humidity := 0, snow := 0,
    cloudcov := 0, avg_cloudcov := 0, lightning := 0, pressure := 0, temp := 0, avg_temp := 0,
    max_temp := 0, min_temp := 0, time := 0, max_time := 0, min_time := 0 }

/-! ## Auxiliary definitions for the proofs -/

/-- The loop of `analyze_file` seen on the slots that are still to be visited. -/
def scan : States → climate_info → States
  | [], _ => []
  | none :: rest, state => some { state with num_records := 1 } :: rest
  | some s :: rest, state =>
    if strcmp s.code state.code = 0 then some (add_stateinfo_record s state) :: rest
    else some s :: scan rest state

/-- The loop of `analyze_file` seen on the list of the records of the occupied slots. -/
def upsert : List climate_info → climate_info → List climate_info
  | [], state => [{ state with num_records := 1 }]
  | s :: rest, state =>
    if strcmp s.code state.code = 0 then add_stateinfo_record s state :: rest
    else s :: upsert rest state

/-- The table of `n` slots whose first slots hold the records `es`, the others being `NULL`. -/
def pad (n : Nat) (es : List climate_info) : States :=
  es.map some ++ List.replicate (n - es.length) none

/-- The search of `analyze_file` seen on the list of the records of the occupied slots. -/
def lookup : List climate_info → List Char → Option climate_info
  | [], _ => none
  | s :: rest, code => if strcmp s.code code = 0 then some s else lookup rest code

/-- One record of a region folded into the entry of that region, if there is one. -/
def fold_region (acc : Option climate_info) (state : climate_info) : Option climate_info :=
  some (match acc with
    | some e => add_stateinfo_record e state
    | none => { state with num_records := 1 })

/-! ## Sample records (header comment of climate.c, lines 40-41) -/

/-- The first sample line of the header comment. -/
def sample_line_1 : List Char :=
  "CA\t1428300000000\t9prc\t93.0\t0.0\t100.0\t0.0\t95644.0\t277.58716\n".toList

/-- The second sample line of the header comment. -/
def sample_line_2 : List Char :=
  "CA\t1430308800000\t9prc\t4.0\t0.0\t100.0\t0.0\t99226.0\t282.63037\n".toList

/-- The record that `state_tokens` builds from `sample_line_1` in a zero-filled block. -/
def sample_state_1 : climate_info :=
  { zero_mem with
    code := ['C', 'A', NUL], time := -1924109, humidity := 93, cloudcov := 100,
    pressure := 95644, temp := 4998361 / 125000 }

/-- The record that `state_tokens` builds from `sample_line_2` in a zero-filled block. -/
def sample_state_2 : climate_info :=
  { zero_mem with
    code := ['C', 'A', NUL], time := 84690, humidity := 4, cloudcov := 100,
    pressure := 99226, temp := 24532333 / 500000 }

/-- The first sample line with the timestamp field of the second one: same temperature as
`sample_line_1`, another time. -/
def sample_line_3 : List Char :=
  "CA\t1430308800000\t9prc\t93.0\t0.0\t100.0\t0.0\t95644.0\t277.58716\n".toList

/-- The record that `state_tokens` builds from `sample_line_3` in a zero-filled block. -/
def sample_state_3 : climate_info :=
  { zero_mem with
    code := ['C', 'A', NUL], time := 84690, humidity := 93, cloudcov := 100,
    pressure := 95644, temp := 4998361 / 125000 }

/-- A record of another region, with snow and lightning. -/
def sample_state_wa : climate_info :=
  { zero_mem with
    code := ['W', 'A', NUL], time := 1000, humidity := 50, snow := 1, cloudcov := 20,
    lightning := 1, pressure := 100000, temp := 30 }

/-- A table of `NUM_STATES` slots whose first slot holds an entry with the extremes of the
first sample line. -/
def seeded_states : States :=
  some { sample_state_1 with
    num_records := 1, max_temp := 4998361 / 125000, min_temp := 4998361 / 125000,
    max_time := -1924109, min_time := -1924109 } :: List.replicate 49 none

/-- A line with 5 fields only: the first five fields of the first sample line. -/
def short_line : List Char := "CA\t1428300000000\t9prc\t93.0\t0.0\n".toList

/-- The maximal tab-free segments of a text, the empty ones included: the fields obtained by
cutting the text at every tab. -/
def tab_segments : List Char → List (List Char)
  | [] => [[]]
  | c :: cs =>
    if c = '\t' then [] :: tab_segments cs
    else (c :: (tab_segments cs).headD []) :: (tab_segments cs).tail

/-- The non-empty maximal tab-free segments of a text, in order. -/
def nonempty_segments (s : List Char) : List (List Char) :=
  (tab_segments s).filter (fun t => !t.isEmpty)

/-- The text with each run of tabs replaced by a single tab. -/
def squeeze_tabs : List Char → List Char
  | [] => []
  | c :: cs =>
    if c = '\t' ∧ cs.head? = some '\t' then squeeze_tabs cs else c :: squeeze_tabs cs

/-- A table whose `NUM_STATES` slots are all occupied, by records of the regions `AA` to `BX`. -/
def full_states : States :=
  (List.range 50).map (fun i =>
    some { sample_state_wa with
      code := [Char.ofNat (65 + i / 26), Char.ofNat (65 + i % 26), NUL], num_records := 1 })

/-- The first loop of `print_report` (climate.c:290-297), entered at index `i` with
`n = num_states - i` iterations left: the region codes printed after `States found:`, in the
order in which they are printed. -/
def print_report_states_found (states : States) : Nat → Nat → List (List Char)
  | 0, _ => []
  | n + 1, i =>
    match states[i]? with
    | some (some info) => cstr info.code :: print_report_states_found states n (i + 1)
    | _ => print_report_states_found states n (i + 1)

/-- The distinct elements of a list of codes, in the order of their first occurrence. -/
def first_occurrences : List (List Char) → List (List Char)
  | [] => []
  | x :: xs => x :: (first_occurrences xs).filter (fun y => y != x)

/-- The loop `for (i = 1; i < argc; ++i)` of `main` (climate.c:125-143) over the contents of
the files, which are all taken to open; `heap k` is the content of the block that `malloc`
returns for the `k`-th line read from here on. -/
def main_for (heap : Nat → climate_info) : List (List Char) → States → Option States
  | [], states => some states
  | file :: rest, states =>
    match analyze_file heap file states NUM_STATES with
    | none => none
    | some states2 =>
      main_for (fun k => heap (k + (fgets_lines 100 file []).length)) rest states2

/-- The records that `state_tokens` builds from the lines, in order, the block of the first
line being `heap k`; `none` when a line makes `create_state` read an unassigned token. -/
def parse_lines (heap : Nat → climate_info) :
    Nat → List (List Char) → Option (List climate_info)
  | _, [] => some []
  | k, line :: rest =>
    match state_tokens (heap k) line with
    | none => none
    | some o =>
      match parse_lines heap (k + 1) rest with
      | none => none
      | some os => some (o :: os)


/-- A table of `NUM_STATES` slots whose first two slots hold an entry of region WA and an entry
of region CA. -/
def two_region_states : States :=
  some { sample_state_wa with num_records := 1 }
    :: some { sample_state_1 with num_records := 1 } :: List.replicate 48 none

theorem strcmp_chars_eq_zero_iff (a b : List Char) : strcmp_chars a b = 0 ↔ a = b := by
  induction a generalizing b with
  | nil => cases b <;> simp [strcmp_chars]
  | cons x xs ih =>
    cases b with
    | nil => simp [strcmp_chars]
    | cons y ys =>
      by_cases hxy : x = y
      · simp [strcmp_chars, hxy, ih]
      · by_cases hlt : x.toNat < y.toNat <;> simp [strcmp_chars, hxy, hlt]

theorem strcmp_eq_zero_iff (a b : List Char) : strcmp a b = 0 ↔ cstr a = cstr b := by
  unfold strcmp
  exact strcmp_chars_eq_zero_iff _ _

theorem analyze_file_for_eq_scan (states : States) (state : climate_info) (n i : Nat)
    (h : i + n = states.length) :
    analyze_file_for states state n i = states.take i ++ scan (states.drop i) state := by
  induction n generalizing i with
  | zero =>
    have hi : i = states.length := by omega
    subst hi
    simp [analyze_file_for, scan]
  | succ n ih =>
    have hi : i < states.length := by omega
    have hd : states.drop i = states[i] :: states.drop (i + 1) := List.drop_eq_getElem_cons hi
    have hg : states[i]? = some states[i] := List.getElem?_eq_getElem hi
    rw [analyze_file_for, hd]
    cases hx : states[i] with
    | none =>
      simp only [hg, hx, add_state, scan]
      exact List.set_eq_take_append_cons_drop.trans (by simp [hi])
    | some s =>
      simp only [hg, hx, scan]
      by_cases hc : strcmp s.code state.code = 0
      · simp only [hc, if_true, add_stateinfo, hg, hx]
        exact List.set_eq_take_append_cons_drop.trans (by simp [hi])
      · simp only [hc, if_false]
        rw [ih (i + 1) (by omega), List.take_succ, hg, hx]
        simp

theorem ingest_eq_scan (states : States) (state : climate_info)
    (h : states.length = NUM_STATES) : ingest states state = scan states state := by
  unfold ingest
  rw [analyze_file_for_eq_scan states state NUM_STATES 0 (by omega)]
  simp


theorem add_stateinfo_record_code (s state : climate_info) :
    (add_stateinfo_record s state).code = s.code := by
  unfold add_stateinfo_record
  simp only
  split_ifs <;> rfl

theorem find_state_scan_present (states : States) (state e : climate_info)
    (h : find_state states state.code = some e) :
    find_state (scan states state) state.code = some (add_stateinfo_record e state) := by
  induction states with
  | nil => simp [find_state] at h
  | cons x rest ih =>
    cases x with
    | none => simp [find_state] at h
    | some s =>
      by_cases hc : strcmp s.code state.code = 0
      · simp only [find_state, hc, if_true, Option.some.injEq] at h
        subst h
        simp [scan, find_state, hc, add_stateinfo_record_code]
      · simp only [find_state, hc, if_false] at h
        simp [scan, find_state, hc, ih h]

theorem pad_length (n : Nat) (es : List climate_info) (h : es.length ≤ n) :
    (pad n es).length = n := by
  simp [pad]
  omega

theorem pad_cons (n : Nat) (e : climate_info) (es : List climate_info) :
    pad (n + 1) (e :: es) = some e :: pad n es := by
  simp [pad]

theorem upsert_length_pos (es : List climate_info) (state : climate_info) :
    0 < (upsert es state).length := by
  cases es with
  | nil => simp [upsert]
  | cons s rest =>
    by_cases hc : strcmp s.code state.code = 0 <;> simp [upsert, hc]

theorem upsert_length_ge (es : List climate_info) (state : climate_info) :
    es.length ≤ (upsert es state).length := by
  induction es with
  | nil => simp
  | cons s rest ih =>
    by_cases hc : strcmp s.code state.code = 0 <;> simp [upsert, hc, ih]

theorem scan_pad (n : Nat) (es : List climate_info) (state : climate_info)
    (h : (upsert es state).length ≤ n) : scan (pad n es) state = pad n (upsert es state) := by
  induction es generalizing n with
  | nil =>
    cases n with
    | zero => simp [upsert] at h
    | succ m => simp [pad, upsert, scan, List.replicate_succ]
  | cons s rest ih =>
    cases n with
    | zero => have := upsert_length_pos (s :: rest) state; omega
    | succ m =>
      rw [pad_cons]
      by_cases hc : strcmp s.code state.code = 0
      · simp [scan, upsert, hc, pad_cons]
      · simp only [upsert, hc, if_false, List.length_cons, Nat.add_le_add_iff_right] at h
        simp [scan, upsert, hc, pad_cons, ih m h]

theorem find_state_map_some (es : List climate_info) (k : Nat) (c : List Char) :
    find_state (es.map some ++ List.replicate k none) c = lookup es c := by
  induction es with
  | nil => cases k <;> simp [find_state, lookup, List.replicate_succ]
  | cons e rest ih => simp [find_state, lookup, ih]

theorem find_state_pad (n : Nat) (es : List climate_info) (c : List Char) :
    find_state (pad n es) c = lookup es c :=
  find_state_map_some es _ c

theorem lookup_upsert (es : List climate_info) (state : climate_info) (c : List Char) :
    lookup (upsert es state) c
      = if strcmp state.code c = 0 then
          some (match lookup es c with
            | some e => add_stateinfo_record e state
            | none => { state with num_records := 1 })
        else lookup es c := by
  induction es with
  | nil => simp [upsert, lookup]
  | cons s rest ih =>
    by_cases hs : strcmp s.code state.code = 0
    · have hs2 := (strcmp_eq_zero_iff _ _).1 hs
      by_cases hc : strcmp state.code c = 0
      · have hc2 := (strcmp_eq_zero_iff _ _).1 hc
        have hsc : strcmp s.code c = 0 := (strcmp_eq_zero_iff _ _).2 (hs2.trans hc2)
        simp [upsert, lookup, hs, hc, hsc, add_stateinfo_record_code]
      · have hsc : ¬ strcmp s.code c = 0 := by
          intro h
          exact hc ((strcmp_eq_zero_iff _ _).2 (hs2.symm.trans ((strcmp_eq_zero_iff _ _).1 h)))
        simp [upsert, lookup, hs, hc, hsc, add_stateinfo_record_code]
    · by_cases hsc : strcmp s.code c = 0
      · have hc : ¬ strcmp state.code c = 0 := by
          intro h
          apply hs
          exact (strcmp_eq_zero_iff _ _).2
            (((strcmp_eq_zero_iff _ _).1 hsc).trans ((strcmp_eq_zero_iff _ _).1 h).symm)
        simp [upsert, lookup, hs, hc, hsc]
      · simp [upsert, lookup, hs, hsc, ih]

theorem lookup_foldl_upsert (obs es : List climate_info) (c : List Char) :
    lookup (obs.foldl upsert es) c
      = (obs.filter (fun o => strcmp o.code c = 0)).foldl fold_region (lookup es c) := by
  induction obs generalizing es with
  | nil => simp
  | cons o rest ih =>
    rw [List.foldl_cons, ih, lookup_upsert]
    by_cases hc : strcmp o.code c = 0
    · simp [List.filter_cons, hc, fold_region]
    · simp [List.filter_cons, hc]

theorem foldl_fold_region_some (os : List climate_info) (e : climate_info) :
    os.foldl fold_region (some e) = some (os.foldl add_stateinfo_record e) := by
  induction os generalizing e with
  | nil => rfl
  | cons o rest ih => simp [List.foldl_cons, fold_region, ih]

theorem add_stateinfo_record_num_records (s state : climate_info) :
    (add_stateinfo_record s state).num_records = s.num_records + 1 := by
  unfold add_stateinfo_record
  simp only
  split_ifs <;> rfl

theorem add_stateinfo_record_humidity (s state : climate_info) :
    (add_stateinfo_record s state).humidity = s.humidity + state.humidity := by
  unfold add_stateinfo_record
  simp only
  split_ifs <;> rfl

theorem add_stateinfo_record_cloudcov (s state : climate_info) :
    (add_stateinfo_record s state).cloudcov = s.cloudcov + state.cloudcov := by
  unfold add_stateinfo_record
  simp only
  split_ifs <;> rfl

theorem add_stateinfo_record_temp (s state : climate_info) :
    (add_stateinfo_record s state).temp = s.temp + state.temp := by
  unfold add_stateinfo_record
  simp only
  split_ifs <;> rfl

theorem add_stateinfo_record_pressure (s state : climate_info) :
    (add_stateinfo_record s state).pressure = s.pressure + state.pressure := by
  unfold add_stateinfo_record
  simp only
  split_ifs <;> rfl

theorem add_stateinfo_record_avg_humidity (s state : climate_info) :
    (add_stateinfo_record s state).avg_humidity
      = (s.humidity + state.humidity) / ((s.num_records + 1 : Nat) : ℚ) := by
  unfold add_stateinfo_record
  simp only
  split_ifs <;> rfl

theorem add_stateinfo_record_avg_cloudcov (s state : climate_info) :
    (add_stateinfo_record s state).avg_cloudcov
      = (s.cloudcov + state.cloudcov) / ((s.num_records + 1 : Nat) : ℚ) := by
  unfold add_stateinfo_record
  simp only
  split_ifs <;> rfl

theorem add_stateinfo_record_avg_temp (s state : climate_info) :
    (add_stateinfo_record s state).avg_temp
      = (s.temp + state.temp) / ((s.num_records + 1 : Nat) : ℚ) := by
  unfold add_stateinfo_record
  simp only
  split_ifs <;> rfl

theorem foldl_record_totals (os : List climate_info) (e : climate_info) :
    (os.foldl add_stateinfo_record e).num_records = e.num_records + os.length ∧
    (os.foldl add_stateinfo_record e).humidity = e.humidity + (os.map (·.humidity)).sum ∧
    (os.foldl add_stateinfo_record e).cloudcov = e.cloudcov + (os.map (·.cloudcov)).sum ∧
    (os.foldl add_stateinfo_record e).temp = e.temp + (os.map (·.temp)).sum ∧
    (os.foldl add_stateinfo_record e).pressure = e.pressure + (os.map (·.pressure)).sum := by
  induction os generalizing e with
  | nil => simp
  | cons o rest ih =>
    obtain ⟨h1, h2, h3, h4, h5⟩ := ih (add_stateinfo_record e o)
    simp only [List.foldl_cons, List.map_cons, List.sum_cons, List.length_cons]
    rw [h1, h2, h3, h4, h5, add_stateinfo_record_num_records,
      add_stateinfo_record_humidity, add_stateinfo_record_cloudcov, add_stateinfo_record_temp,
      add_stateinfo_record_pressure]
    refine ⟨by omega, by ring, by ring, by ring, by ring⟩

theorem upsert_keys (es : List climate_info) (state : climate_info) :
    (upsert es state).map (fun e => cstr e.code)
      = if cstr state.code ∈ es.map (fun e => cstr e.code) then es.map (fun e => cstr e.code)
        else es.map (fun e => cstr e.code) ++ [cstr state.code] := by
  induction es with
  | nil => simp [upsert]
  | cons s rest ih =>
    by_cases hs : strcmp s.code state.code = 0
    · have hs2 := (strcmp_eq_zero_iff _ _).1 hs
      simp [upsert, hs, add_stateinfo_record_code, hs2]
    · have hs2 : ¬ cstr state.code = cstr s.code :=
        fun h => hs ((strcmp_eq_zero_iff _ _).2 h.symm)
      simp only [upsert, hs, if_false, List.map_cons, ih, List.mem_cons, hs2, false_or]
      split_ifs <;> simp

theorem foldl_upsert_keys (obs es : List climate_info)
    (hn : (es.map (fun e => cstr e.code)).Nodup) :
    ((obs.foldl upsert es).map (fun e => cstr e.code)).Nodup ∧
    ((obs.foldl upsert es).map (fun e => cstr e.code)).toFinset
      = (es.map (fun e => cstr e.code)).toFinset ∪ (obs.map (fun o => cstr o.code)).toFinset := by
  induction obs generalizing es with
  | nil => simp [hn]
  | cons o rest ih =>
    have hn2 : ((upsert es o).map (fun e => cstr e.code)).Nodup := by
      rw [upsert_keys]
      split_ifs with h
      · exact hn
      · exact List.Nodup.append hn (List.nodup_singleton _) (by simpa using h)
    obtain ⟨h1, h2⟩ := ih (upsert es o) hn2
    refine ⟨h1, ?_⟩
    rw [List.foldl_cons, h2, upsert_keys]
    ext x
    split_ifs with h
    · simp only [List.mem_map] at h
      simp only [Finset.mem_union, List.mem_toFinset, List.map_cons, List.mem_cons, List.mem_map]
      constructor
      · rintro (hx | hx)
        · exact Or.inl hx
        · exact Or.inr (Or.inr hx)
      · rintro (hx | hx | hx)
        · exact Or.inl hx
        · subst hx; exact Or.inl h
        · exact Or.inr hx
    · simp only [Finset.mem_union, List.mem_toFinset, List.map_cons, List.mem_cons,
        List.mem_append, List.mem_singleton]
      tauto

theorem foldl_upsert_length (obs : List climate_info) :
    (obs.foldl upsert []).length = (obs.map (fun o => cstr o.code)).toFinset.card := by
  obtain ⟨h1, h2⟩ := foldl_upsert_keys obs [] (by simp)
  have h3 := List.toFinset_card_of_nodup h1
  rw [h2] at h3
  simpa using h3.symm

theorem foldl_upsert_length_ge (obs es : List climate_info) :
    es.length ≤ (obs.foldl upsert es).length := by
  induction obs generalizing es with
  | nil => simp
  | cons o rest ih => exact (upsert_length_ge es o).trans (ih (upsert es o))

theorem ingest_all_pad (obs es : List climate_info)
    (h : (obs.foldl upsert es).length ≤ NUM_STATES) :
    ingest_all (pad NUM_STATES es) obs = pad NUM_STATES (obs.foldl upsert es) := by
  induction obs generalizing es with
  | nil => rfl
  | cons o rest ih =>
    have h1 : (upsert es o).length ≤ NUM_STATES := (foldl_upsert_length_ge rest _).trans h
    have h0 : es.length ≤ NUM_STATES := (upsert_length_ge es o).trans h1
    unfold ingest_all at ih ⊢
    rw [List.foldl_cons, ingest_eq_scan _ _ (pad_length _ _ h0), scan_pad _ _ _ h1]
    exact ih (upsert es o) h

theorem empty_states_eq_pad : empty_states = pad NUM_STATES [] := by
  simp [empty_states, pad]

theorem atof_of_parts (s : List Char) (neg : Bool) (m : Nat) (e : Int)
    (h : atof_parts s = some (.decimal neg m e)) : atof s = decimal_to_rat neg m e := by
  simp [atof, h]

theorem sample_line_1_tokens :
    state_tokens_while 9 sample_line_1
      = ["CA".toList, "1428300000000".toList, "9prc".toList, "93.0".toList, "0.0".toList,
         "100.0".toList, "0.0".toList, "95644.0".toList, "277.58716\n".toList] := by
  decide

theorem sample_line_2_tokens :
    state_tokens_while 9 sample_line_2
      = ["CA".toList, "1430308800000".toList, "9prc".toList, "4.0".toList, "0.0".toList,
         "100.0".toList, "0.0".toList, "99226.0".toList, "282.63037\n".toList] := by
  decide

theorem atof_zero_text : atof "0.0".toList = 0 := by
  rw [atof_of_parts _ false 0 (-1) (by decide)]
  norm_num [decimal_to_rat, Int.toNat]

theorem atof_hundred_text : atof "100.0".toList = 100 := by
  rw [atof_of_parts _ false 1000 (-1) (by decide)]
  norm_num [decimal_to_rat, Int.toNat]

theorem double_to_int_zero : double_to_int 0 = 0 := by
  simp [double_to_int]

theorem atof_to_int_of_decimal (s : List Char) (neg : Bool) (m : Nat) (e : Int)
    (h : atof_parts s = some (.decimal neg m e)) : atof_to_int s = double_to_int (atof s) := by
  simp [atof_to_int, h]

theorem atof_to_int_zero_text : atof_to_int "0.0".toList = 0 := by
  rw [atof_to_int_of_decimal _ false 0 (-1) (by decide), atof_zero_text, double_to_int_zero]

theorem state_tokens_sample_line_1 (mem : climate_info) :
    state_tokens mem sample_line_1
      = some { mem with
          code := ['C', 'A'] ++ mem.code.drop 2, time := -1924109, humidity := 93, snow := 0,
          cloudcov := 100, lightning := 0, pressure := 95644, temp := 4998361 / 125000 } := by
  have h1 : atoi "1428300000000".toList = -1924109568 := by decide
  have h3 : atof "93.0".toList = 93 := by
    rw [atof_of_parts _ false 930 (-1) (by decide)]
    norm_num [decimal_to_rat, Int.toNat]
  have h7 : atof "95644.0".toList = 95644 := by
    rw [atof_of_parts _ false 956440 (-1) (by decide)]
    norm_num [decimal_to_rat, Int.toNat]
  have h8 : atof "277.58716\n".toList = 27758716 / 100000 := by
    rw [atof_of_parts _ false 27758716 (-5) (by decide)]
    norm_num [decimal_to_rat, Int.toNat]
  have hc : strncpy mem.code "CA".toList 2 = ['C', 'A'] ++ mem.code.drop 2 := by
    have hcs : cstr "CA".toList = ['C', 'A'] := by decide
    unfold strncpy
    rw [hcs]
    rfl
  have ht : Int.tdiv (-1924109568) 1000 = -1924109 := by decide
  simp only [state_tokens, sample_line_1_tokens, create_state, List.getElem?_cons_zero,
    List.getElem?_cons_succ, Option.bind_eq_bind, Option.some_bind, h1, h3, h7, h8, hc, ht,
    atof_zero_text, atof_hundred_text, atof_to_int_zero_text]
  norm_num

theorem state_tokens_sample_line_2 (mem : climate_info) :
    state_tokens mem sample_line_2
      = some { mem with
          code := ['C', 'A'] ++ mem.code.drop 2, time := 84690, humidity := 4, snow := 0,
          cloudcov := 100, lightning := 0, pressure := 99226, temp := 24532333 / 500000 } := by
  have h1 : atoi "1430308800000".toList = 84690432 := by decide
  have h3 : atof "4.0".toList = 4 := by
    rw [atof_of_parts _ false 40 (-1) (by decide)]
    norm_num [decimal_to_rat, Int.toNat]
  have h7 : atof "99226.0".toList = 99226 := by
    rw [atof_of_parts _ false 992260 (-1) (by decide)]
    norm_num [decimal_to_rat, Int.toNat]
  have h8 : atof "282.63037\n".toList = 28263037 / 100000 := by
    rw [atof_of_parts _ false 28263037 (-5) (by decide)]
    norm_num [decimal_to_rat, Int.toNat]
  have hc : strncpy mem.code "CA".toList 2 = ['C', 'A'] ++ mem.code.drop 2 := by
    have hcs : cstr "CA".toList = ['C', 'A'] := by decide
    unfold strncpy
    rw [hcs]
    rfl
  have ht : Int.tdiv 84690432 1000 = 84690 := by decide
  simp only [state_tokens, sample_line_2_tokens, create_state, List.getElem?_cons_zero,
    List.getElem?_cons_succ, Option.bind_eq_bind, Option.some_bind, h1, h3, h7, h8, hc, ht,
    atof_zero_text, atof_hundred_text, atof_to_int_zero_text]
  norm_num

theorem state_tokens_sample_1_zero :
    state_tokens zero_mem sample_line_1 = some sample_state_1 := by
  rw [state_tokens_sample_line_1]
  rfl

theorem state_tokens_sample_2_zero :
    state_tokens zero_mem sample_line_2 = some sample_state_2 := by
  rw [state_tokens_sample_line_2]
  rfl

theorem sample_line_3_tokens :
    state_tokens_while 9 sample_line_3
      = ["CA".toList, "1430308800000".toList, "9prc".toList, "93.0".toList, "0.0".toList,
         "100.0".toList, "0.0".toList, "95644.0".toList, "277.58716\n".toList] := by
  decide

theorem state_tokens_sample_3_zero :
    state_tokens zero_mem sample_line_3 = some sample_state_3 := by
  have h1 : atoi "1430308800000".toList = 84690432 := by decide
  have h3 : atof "93.0".toList = 93 := by
    rw [atof_of_parts _ false 930 (-1) (by decide)]
    norm_num [decimal_to_rat, Int.toNat]
  have h7 : atof "95644.0".toList = 95644 := by
    rw [atof_of_parts _ false 956440 (-1) (by decide)]
    norm_num [decimal_to_rat, Int.toNat]
  have h8 : atof "277.58716\n".toList = 27758716 / 100000 := by
    rw [atof_of_parts _ false 27758716 (-5) (by decide)]
    norm_num [decimal_to_rat, Int.toNat]
  have hc : strncpy zero_mem.code "CA".toList 2 = ['C', 'A', NUL] := by decide
  have ht : Int.tdiv 84690432 1000 = 84690 := by decide
  simp only [state_tokens, sample_line_3_tokens, create_state, List.getElem?_cons_zero,
    List.getElem?_cons_succ, Option.bind_eq_bind, Option.some_bind, h1, h3, h7, h8, hc, ht,
    atof_zero_text, atof_hundred_text, atof_to_int_zero_text]
  norm_num [sample_state_3, zero_mem]

theorem find_state_ingest_all (obs : List climate_info) (c : List Char)
    (hd : (obs.map (fun o => cstr o.code)).toFinset.card ≤ NUM_STATES) :
    find_state (ingest_all empty_states obs) c
      = (obs.filter (fun o => strcmp o.code c = 0)).foldl fold_region none := by
  rw [empty_states_eq_pad, ingest_all_pad obs [] (by rw [foldl_upsert_length]; exact hd),
    find_state_pad, lookup_foldl_upsert]
  rfl

theorem find_state_ingest_all_region (o : climate_info) (rest : List climate_info)
    (c : List Char) (ho : strcmp o.code c = 0) (hr : ∀ r ∈ rest, strcmp r.code c = 0) :
    find_state (ingest_all empty_states (o :: rest)) c
      = some (rest.foldl add_stateinfo_record { o with num_records := 1 }) := by
  have hall : ∀ r ∈ o :: rest, strcmp r.code c = 0 := by
    intro r hr2
    rcases List.mem_cons.1 hr2 with h | h
    · rw [h]; exact ho
    · exact hr r h
  have hsub : ((o :: rest).map (fun o => cstr o.code)).toFinset ⊆ {cstr c} := by
    intro x hx
    simp only [List.mem_toFinset, List.mem_map] at hx
    obtain ⟨r, hr2, rfl⟩ := hx
    simpa using (strcmp_eq_zero_iff _ _).1 (hall r hr2)
  have hd : ((o :: rest).map (fun o => cstr o.code)).toFinset.card ≤ NUM_STATES := by
    have := Finset.card_le_card hsub
    simp only [Finset.card_singleton] at this
    unfold NUM_STATES
    omega
  have hf : (o :: rest).filter (fun o => strcmp o.code c = 0) = o :: rest := by
    rw [List.filter_eq_self]
    intro r hr2
    simpa using hall r hr2
  rw [find_state_ingest_all _ _ hd, hf, List.foldl_cons]
  exact foldl_fold_region_some rest _

/-- The entry that the first record of a region leaves in the empty table: the record as
`create_state` built it, with `num_records = 1`. -/
theorem first_touch_entry (o : climate_info) :
    find_state (ingest empty_states o) o.code = some { o with num_records := 1 } :=
  find_state_ingest_all_region o [] o.code ((strcmp_eq_zero_iff _ _).2 rfl) (by simp)

theorem foldl_record_averages (os : List climate_info) (e : climate_info) (h : os ≠ []) :
    (os.foldl add_stateinfo_record e).avg_humidity
      = (os.foldl add_stateinfo_record e).humidity
          / (((os.foldl add_stateinfo_record e).num_records : Nat) : ℚ) ∧
    (os.foldl add_stateinfo_record e).avg_cloudcov
      = (os.foldl add_stateinfo_record e).cloudcov
          / (((os.foldl add_stateinfo_record e).num_records : Nat) : ℚ) ∧
    (os.foldl add_stateinfo_record e).avg_temp
      = (os.foldl add_stateinfo_record e).temp
          / (((os.foldl add_stateinfo_record e).num_records : Nat) : ℚ) := by
  rcases List.eq_nil_or_concat os with h0 | ⟨init, last, rfl⟩
  · exact absurd h0 h
  · simp only [List.concat_eq_append, List.foldl_append, List.foldl_cons, List.foldl_nil]
    rw [add_stateinfo_record_avg_humidity, add_stateinfo_record_avg_cloudcov,
      add_stateinfo_record_avg_temp, add_stateinfo_record_humidity,
      add_stateinfo_record_cloudcov, add_stateinfo_record_temp,
      add_stateinfo_record_num_records]
    exact ⟨rfl, rfl, rfl⟩

/-- Averages of a region that has at least two records: each stored average is the sum of the
raw values divided by the number of records. -/
theorem averages_from_second_record (o r : climate_info) (rest : List climate_info)
    (hr : ∀ x ∈ r :: rest, strcmp x.code o.code = 0) :
    ∃ e, find_state (ingest_all empty_states (o :: r :: rest)) o.code = some e ∧
      e.avg_humidity
        = ((o :: r :: rest).map (·.humidity)).sum / ((rest.length + 2 : Nat) : ℚ) ∧
      e.avg_cloudcov
        = ((o :: r :: rest).map (·.cloudcov)).sum / ((rest.length + 2 : Nat) : ℚ) ∧
      e.avg_temp = ((o :: r :: rest).map (·.temp)).sum / ((rest.length + 2 : Nat) : ℚ) := by
  refine ⟨_, find_state_ingest_all_region o (r :: rest) o.code
    ((strcmp_eq_zero_iff _ _).2 rfl) hr, ?_⟩
  obtain ⟨a1, a2, a3⟩ :=
    foldl_record_averages (r :: rest) { o with num_records := 1 } (by simp)
  obtain ⟨t1, t2, t3, t4, -⟩ :=
    foldl_record_totals (r :: rest) { o with num_records := 1 }
  rw [a1, a2, a3, t1, t2, t3, t4]
  have hn : ({ o with num_records := 1 } : climate_info).num_records + (r :: rest).length
      = rest.length + 2 := by
    simp only [List.length_cons]
    omega
  rw [hn]
  simp

theorem to_int32_of_range (z : Int) (h0 : -(2 ^ 31) ≤ z) (h1 : z < 2 ^ 31) : to_int32 z = z := by
  unfold to_int32
  omega

theorem to_int32_range (z : Int) : -(2 ^ 31) ≤ to_int32 z ∧ to_int32 z < 2 ^ 31 := by
  unfold to_int32
  omega

theorem state_tokens_some_of_ninth (mem : climate_info) (line t8 : List Char)
    (h : (state_tokens_while 9 line)[8]? = some t8) :
    ∃ t0 t1 t3 t4 t5 t6 t7,
      (state_tokens_while 9 line)[0]? = some t0 ∧ (state_tokens_while 9 line)[1]? = some t1 ∧
      (state_tokens_while 9 line)[3]? = some t3 ∧ (state_tokens_while 9 line)[4]? = some t4 ∧
      (state_tokens_while 9 line)[5]? = some t5 ∧ (state_tokens_while 9 line)[6]? = some t6 ∧
      (state_tokens_while 9 line)[7]? = some t7 ∧
      state_tokens mem line = some { mem with
        code := strncpy mem.code t0 2
        time := Int.tdiv (atoi t1) 1000
        humidity := atof t3
        snow := atof_to_int t4
        cloudcov := atof t5
        lightning := atof_to_int t6
        pressure := atof t7
        temp := atof t8 * (9 / 5) - 45967 / 100 } := by
  obtain ⟨hlen, -⟩ := List.getElem?_eq_some_iff.1 h
  have g : ∀ k, k < 9 →
      (state_tokens_while 9 line)[k]? = some ((state_tokens_while 9 line)[k]?.getD []) := by
    intro k hk
    have hk2 : k < (state_tokens_while 9 line).length := by omega
    simp [List.getElem?_eq_getElem hk2]
  refine ⟨_, _, _, _, _, _, _, g 0 (by omega), g 1 (by omega), g 3 (by omega), g 4 (by omega),
    g 5 (by omega), g 6 (by omega), g 7 (by omega), ?_⟩
  unfold state_tokens create_state
  simp only [Option.bind_eq_bind]
  rw [g 0 (by omega), g 1 (by omega), g 3 (by omega), g 4 (by omega), g 5 (by omega),
    g 6 (by omega), g 7 (by omega), h]
  rfl

theorem tdiv_thousand_range (z : Int) (h0 : -(2 ^ 31) ≤ z) (h1 : z < 2 ^ 31) :
    -2147483 ≤ Int.tdiv z 1000 ∧ Int.tdiv z 1000 ≤ 2147483 := by
  rcases le_or_lt 0 z with hz | hz
  · rw [Int.tdiv_eq_ediv hz (by decide)]
    omega
  · have hneg : Int.tdiv z 1000 = -((-z) / 1000) := by
      rw [← Int.tdiv_eq_ediv (by omega) (by decide), Int.neg_tdiv, neg_neg]
    rw [hneg]
    omega

theorem state_tokens_time_range (mem : climate_info) (line : List Char) (o : climate_info)
    (h : state_tokens mem line = some o) : -2147483 ≤ o.time ∧ o.time ≤ 2147483 := by
  unfold state_tokens create_state at h
  simp only [Option.bind_eq_bind, Option.bind_eq_some] at h
  obtain ⟨t0, -, t1, -, t3, -, t4, -, t5, -, t6, -, t7, -, t8, -, h⟩ := h
  simp only [Option.some.injEq] at h
  subst h
  exact tdiv_thousand_range _ (to_int32_range _).1 (to_int32_range _).2

theorem state_tokens_time_small (mem : climate_info) (line t1 : List Char) (o : climate_info)
    (h : state_tokens mem line = some o) (h1 : (state_tokens_while 9 line)[1]? = some t1)
    (h0 : 0 ≤ strtol t1) (h2 : strtol t1 < 2 ^ 31) : o.time = strtol t1 / 1000 := by
  unfold state_tokens create_state at h
  simp only [Option.bind_eq_bind, Option.bind_eq_some] at h
  obtain ⟨t0, -, u1, hu1, t3, -, t4, -, t5, -, t6, -, t7, -, t8, -, h⟩ := h
  simp only [Option.some.injEq] at h
  subst h
  rw [h1] at hu1
  simp only [Option.some.injEq] at hu1
  subst hu1
  show Int.tdiv (atoi t1) 1000 = strtol t1 / 1000
  rw [atoi, to_int32_of_range _ (by omega) h2, Int.tdiv_eq_ediv h0 (by decide)]

/-- C1 (first-touch seeding): the code evaluated on a concrete run.  The record parsed from the
first sample line in a zero-filled block is ingested into the empty table.  The new entry has
record count 1, but its three averages, `max_temp`, `min_temp`, `max_time` and `min_time` are the
content of the block (all zero), not the humidity, cloud cover, temperature and timestamp of the
record: `add_state` assigns `num_records` only. -/
theorem first_touch_leaves_fields_unset :
    state_tokens zero_mem sample_line_1 = some sample_state_1 ∧
    ∃ e, find_state (ingest empty_states sample_state_1) sample_state_1.code = some e ∧
      e.num_records = 1 ∧
      e.avg_humidity = 0 ∧ sample_state_1.humidity = 93 ∧
      e.avg_cloudcov = 0 ∧ sample_state_1.cloudcov = 100 ∧
      e.avg_temp = 0 ∧ e.max_temp = 0 ∧ e.min_temp = 0 ∧
      sample_state_1.temp = 4998361 / 125000 ∧
      e.max_time = 0 ∧ e.min_time = 0 ∧ sample_state_1.time = -1924109 :=
  ⟨state_tokens_sample_1_zero, { sample_state_1 with num_records := 1 }, rfl, rfl, rfl, rfl, rfl,
    rfl, rfl, rfl, rfl, rfl, rfl, rfl, rfl⟩

/-- C2 (extremum invariant): the code evaluated on a concrete run.  The records of the second and of
the first sample line (49.06 F, then 39.99 F), parsed in zero-filled blocks, are ingested in this
order into the empty table.  The entry ends with `max_temp` equal to the temperature of the
colder record and with `min_temp = 0`, `min_time = 0`, which belong to no record of the
sequence: the first record never enters the comparison. -/
theorem extremes_ignore_first_record :
    state_tokens zero_mem sample_line_2 = some sample_state_2 ∧
    state_tokens zero_mem sample_line_1 = some sample_state_1 ∧
    ∃ e, find_state (ingest_all empty_states [sample_state_2, sample_state_1])
        sample_state_1.code = some e ∧
      e.max_temp = sample_state_1.temp ∧ e.max_time = sample_state_1.time ∧
      sample_state_1.temp < sample_state_2.temp ∧
      e.min_temp = 0 ∧ e.min_time = 0 ∧
      0 < sample_state_1.temp ∧ 0 < sample_state_2.temp ∧
      sample_state_1.time ≠ 0 ∧ sample_state_2.time ≠ 0 := by
  refine ⟨state_tokens_sample_2_zero, state_tokens_sample_1_zero,
    add_stateinfo_record { sample_state_2 with num_records := 1 } sample_state_1,
    find_state_ingest_all_region sample_state_2 [sample_state_1] _ (by decide) (by decide),
    ?_, ?_, ?_, ?_, ?_, ?_, ?_, ?_, ?_⟩ <;>
    norm_num [add_stateinfo_record, sample_state_1, sample_state_2, zero_mem]

/-- C3 (averages are sum / N): the code evaluated on a run with N = 1.  The record of the second
sample line, parsed in a zero-filled block, is the only record ingested into the empty table.
The sums of the entry are those of the record (humidity 4, cloud cover 100, temperature
49.06 F) but the three stored averages are the content of the block, 0, not sum / 1. -/
theorem single_record_averages_unset :
    state_tokens zero_mem sample_line_2 = some sample_state_2 ∧
    ∃ e, find_state (ingest_all empty_states [sample_state_2]) sample_state_2.code = some e ∧
      e.num_records = 1 ∧
      e.humidity = 4 ∧ e.avg_humidity = 0 ∧
      e.cloudcov = 100 ∧ e.avg_cloudcov = 0 ∧
      e.temp = 24532333 / 500000 ∧ e.avg_temp = 0 :=
  ⟨state_tokens_sample_2_zero, { sample_state_2 with num_records := 1 }, rfl, rfl, rfl, rfl, rfl,
    rfl, rfl, rfl⟩

/-- C6 (tie-break step): for every table in which the search finds an entry `e` for the region
of the record `o`, after ingesting `o`: if the temperature of `o` is strictly greater than
`e.max_temp` then `max_temp` and `max_time` become the temperature and timestamp of `o`,
otherwise (equal temperatures included) both are unchanged; `min_temp` and `min_time` are
replaced together exactly when the temperature of `o` is strictly less than `e.min_temp`. -/
theorem tie_break_step (states : States) (o e : climate_info)
    (hlen : states.length = NUM_STATES) (h : find_state states o.code = some e) :
    ∃ e2, find_state (ingest states o) o.code = some e2 ∧
      (e.max_temp < o.temp → e2.max_temp = o.temp ∧ e2.max_time = o.time) ∧
      (¬ e.max_temp < o.temp → e2.max_temp = e.max_temp ∧ e2.max_time = e.max_time) ∧
      (o.temp < e.min_temp → e2.min_temp = o.temp ∧ e2.min_time = o.time) ∧
      (¬ o.temp < e.min_temp → e2.min_temp = e.min_temp ∧ e2.min_time = e.min_time) := by
  refine ⟨add_stateinfo_record e o, ?_, ?_, ?_, ?_, ?_⟩
  · rw [ingest_eq_scan states o hlen]
    exact find_state_scan_present states o e h
  all_goals
    intro hcmp
    unfold add_stateinfo_record
    simp only [gt_iff_lt]
    split_ifs <;> exact ⟨rfl, rfl⟩

/-- Witness of C6: a record with the temperature of the stored extremes and another timestamp
is ingested into `seeded_states`. -/
theorem tie_break_step_witness :
    seeded_states.length = NUM_STATES ∧
    find_state seeded_states sample_state_3.code
      = some { sample_state_1 with
          num_records := 1, max_temp := 4998361 / 125000, min_temp := 4998361 / 125000,
          max_time := -1924109, min_time := -1924109 } ∧
    ∃ e2, find_state (ingest seeded_states sample_state_3) sample_state_3.code = some e2 ∧
      ((4998361 / 125000 : ℚ) < sample_state_3.temp →
        e2.max_temp = sample_state_3.temp ∧ e2.max_time = sample_state_3.time) ∧
      (¬ (4998361 / 125000 : ℚ) < sample_state_3.temp →
        e2.max_temp = 4998361 / 125000 ∧ e2.max_time = -1924109) ∧
      (sample_state_3.temp < (4998361 / 125000 : ℚ) →
        e2.min_temp = sample_state_3.temp ∧ e2.min_time = sample_state_3.time) ∧
      (¬ sample_state_3.temp < (4998361 / 125000 : ℚ) →
        e2.min_temp = 4998361 / 125000 ∧ e2.min_time = -1924109) :=
  ⟨rfl, rfl, tie_break_step seeded_states sample_state_3 _ rfl rfl⟩

/-- C7 (tie-break scenario): the code evaluated on a concrete run.  The records of `sample_line_1`
and `sample_line_3` (same temperature 39.99 F, stored timestamps -1924109 and 84690), parsed in
zero-filled blocks, are ingested in this order into the empty table.  The recorded `max_time`
is the timestamp of the second record and `min_time` is 0; neither is the timestamp of the
first record. -/
theorem tie_scenario_loses_first_timestamp :
    state_tokens zero_mem sample_line_1 = some sample_state_1 ∧
    state_tokens zero_mem sample_line_3 = some sample_state_3 ∧
    sample_state_1.temp = sample_state_3.temp ∧
    sample_state_1.time = -1924109 ∧ sample_state_3.time = 84690 ∧
    ∃ e, find_state (ingest_all empty_states [sample_state_1, sample_state_3])
        sample_state_1.code = some e ∧
      e.max_time = 84690 ∧ e.min_time = 0 := by
  refine ⟨state_tokens_sample_1_zero, state_tokens_sample_3_zero, rfl, rfl, rfl,
    add_stateinfo_record { sample_state_1 with num_records := 1 } sample_state_3,
    find_state_ingest_all_region sample_state_1 [sample_state_3] _ (by decide) (by decide),
    ?_, ?_⟩ <;>
    norm_num [add_stateinfo_record, sample_state_1, sample_state_3, zero_mem]

/-- C8 (order-sensitivity scenario): the code evaluated on a concrete run.  The file made of the two
sample lines is analysed with zero-filled blocks from the empty table.  The CA entry has count
2, average humidity 48.5, and the maximum temperature and time of the second record, but its
`min_temp` and `min_time` are 0, not the temperature (39.99 F) and timestamp of the first
record. -/
theorem sample_scenario_minimum_unset :
    ∃ t e, analyze_file (fun _ => zero_mem) (sample_line_1 ++ sample_line_2) empty_states
        NUM_STATES = some t ∧
      find_state t "CA".toList = some e ∧
      e.num_records = 2 ∧ e.avg_humidity = 97 / 2 ∧
      e.max_temp = sample_state_2.temp ∧ e.max_time = sample_state_2.time ∧
      e.min_temp = 0 ∧ e.min_time = 0 ∧
      sample_state_1.temp = 4998361 / 125000 ∧ sample_state_1.time = -1924109 := by
  have hl : fgets_lines 100 (sample_line_1 ++ sample_line_2) []
      = [sample_line_1, sample_line_2] := by
    decide
  have ha : analyze_file (fun _ => zero_mem) (sample_line_1 ++ sample_line_2) empty_states
      NUM_STATES = some (ingest_all empty_states [sample_state_1, sample_state_2]) := by
    unfold analyze_file
    rw [hl]
    simp only [analyze_file_while, state_tokens_sample_1_zero, state_tokens_sample_2_zero]
    rfl
  refine ⟨_, add_stateinfo_record { sample_state_1 with num_records := 1 } sample_state_2, ha,
    find_state_ingest_all_region sample_state_1 [sample_state_2] _ (by decide) (by decide),
    ?_, ?_, ?_, ?_, ?_, ?_, ?_, ?_⟩ <;>
    norm_num [add_stateinfo_record, sample_state_1, sample_state_2, zero_mem]

/-- C9 (timestamp truncation): the code evaluated on a concrete run.  Whatever the block holds, the
record parsed from the first sample line, whose second field is 1428300000000, has the
timestamp -1924109 and not 1428300000 = 1428300000000 / 1000: `atoi` keeps 32 bits of the
millisecond value before the division. -/
theorem sample_timestamp_wraps (mem : climate_info) :
    ∃ o, state_tokens mem sample_line_1 = some o ∧
      (state_tokens_while 9 sample_line_1)[1]? = some "1428300000000".toList ∧
      o.time = -1924109 ∧ o.time ≠ (1428300000000 : Int) / 1000 :=
  ⟨_, state_tokens_sample_line_1 mem, by decide, rfl,
    show (-1924109 : Int) ≠ 1428300000000 / 1000 by decide⟩

/-- C10 (Kelvin to Fahrenheit at parse time): for every line whose ninth field is `t8`, the
record is built and its temperature is `atof t8 * 1.8 - 459.67`; the other temperature fields
of the record (`avg_temp`, `max_temp`, `min_temp`) are not assigned, so that the Kelvin value
is in no field. -/
theorem kelvin_to_fahrenheit (mem : climate_info) (line t8 : List Char)
    (h : (state_tokens_while 9 line)[8]? = some t8) :
    ∃ o, state_tokens mem line = some o ∧
      o.temp = atof t8 * (9 / 5) - 45967 / 100 ∧
      o.avg_temp = mem.avg_temp ∧ o.max_temp = mem.max_temp ∧ o.min_temp = mem.min_temp := by
  obtain ⟨t0, t1, t3, t4, t5, t6, t7, -, -, -, -, -, -, -, hs⟩ :=
    state_tokens_some_of_ninth mem line t8 h
  exact ⟨_, hs, rfl, rfl, rfl, rfl⟩

/-- Witness of C10: the first sample line, whose ninth field is the text of 277.58716. -/
theorem kelvin_to_fahrenheit_witness :
    (state_tokens_while 9 sample_line_1)[8]? = some "277.58716\n".toList ∧
    ∃ o, state_tokens zero_mem sample_line_1 = some o ∧
      o.temp = atof "277.58716\n".toList * (9 / 5) - 45967 / 100 ∧
      o.avg_temp = zero_mem.avg_temp ∧ o.max_temp = zero_mem.max_temp ∧
      o.min_temp = zero_mem.min_temp :=
  ⟨by decide, kelvin_to_fahrenheit zero_mem sample_line_1 "277.58716\n".toList (by decide)⟩

/-! ## Lines that are not well formed -/

theorem state_tokens_none_of_short (mem : climate_info) (line : List Char)
    (h : (state_tokens_while 9 line).length < 9) : state_tokens mem line = none := by
  have h8 : (state_tokens_while 9 line)[8]? = none := by
    rw [List.getElem?_eq_none_iff]
    omega
  unfold state_tokens create_state
  simp only [Option.bind_eq_bind, h8, Option.none_bind]
  cases (state_tokens_while 9 line)[0]? <;> cases (state_tokens_while 9 line)[1]? <;>
    cases (state_tokens_while 9 line)[3]? <;> cases (state_tokens_while 9 line)[4]? <;>
    cases (state_tokens_while 9 line)[5]? <;> cases (state_tokens_while 9 line)[6]? <;>
    cases (state_tokens_while 9 line)[7]? <;> rfl

theorem analyze_file_while_single (heap : Nat → climate_info) (k : Nat) (line : List Char)
    (states : States) (o : climate_info) (h : state_tokens (heap k) line = some o) :
    analyze_file_while heap NUM_STATES k [line] states = some (ingest states o) := by
  simp [analyze_file_while, h, ingest]

theorem short_line_tokens :
    state_tokens_while 9 short_line
      = ["CA".toList, "1428300000000".toList, "9prc".toList, "93.0".toList, "0.0\n".toList] := by
  decide

/-- C11 (malformed-line rejection): the code evaluated on a line of 5 fields.  `state_tokens`
stores 5 tokens and calls `create_state`, which reads `tokens[5]` to `tokens[8]`; these were
never assigned, so the behaviour is undefined (`none`), for the line and for the analysis of a
file that holds it from any table.  No path rejects the line and keeps the table. -/
theorem short_line_reads_unassigned_tokens :
    (state_tokens_while 9 short_line).length = 5 ∧
    (∀ mem, state_tokens mem short_line = none) ∧
    ∀ heap states, analyze_file heap short_line states NUM_STATES = none := by
  have h5 : (state_tokens_while 9 short_line).length = 5 := by
    rw [short_line_tokens]
    rfl
  have hn : ∀ mem, state_tokens mem short_line = none :=
    fun mem => state_tokens_none_of_short mem short_line (by omega)
  refine ⟨h5, hn, ?_⟩
  intro heap states
  have hl : fgets_lines 100 short_line [] = [short_line] := by decide
  unfold analyze_file
  rw [hl]
  simp [analyze_file_while, hn]

theorem cstr_idem (s : List Char) : cstr (cstr s) = cstr s :=
  List.takeWhile_idem

theorem cstr_eq_self_iff (s : List Char) : cstr s = s ↔ ∀ x ∈ s, x ≠ NUL := by
  unfold cstr
  rw [List.takeWhile_eq_self_iff]
  simp

theorem cstr_of_sublist (s u : List Char) (h : cstr s = s) (hu : u.Sublist s) : cstr u = u := by
  rw [cstr_eq_self_iff] at h ⊢
  exact fun x hx => h x (hu.subset hx)

theorem tab_segments_ne_nil (s : List Char) : tab_segments s ≠ [] := by
  cases s with
  | nil => simp [tab_segments]
  | cons c cs => by_cases hc : c = '\t' <;> simp [tab_segments, hc]

theorem tab_segments_eq_cons (s : List Char) :
    tab_segments s = (tab_segments s).headD [] :: (tab_segments s).tail := by
  cases h : tab_segments s with
  | nil => exact absurd h (tab_segments_ne_nil s)
  | cons a l => rfl

theorem tab_segments_head (s : List Char) :
    (tab_segments s).headD [] = s.takeWhile (fun c => c != '\t') := by
  induction s with
  | nil => rfl
  | cons c cs ih =>
    by_cases hc : c = '\t'
    · simp [tab_segments, hc]
    · rw [tab_segments]
      simp only [hc, if_false, List.headD_cons]
      rw [ih]
      simp [List.takeWhile_cons, hc]

theorem tab_segments_tail (s : List Char) :
    (tab_segments s).tail
      = if s.dropWhile (fun c => c != '\t') = [] then []
        else tab_segments ((s.dropWhile (fun c => c != '\t')).drop 1) := by
  induction s with
  | nil => rfl
  | cons c cs ih => by_cases hc : c = '\t' <;> simp [tab_segments, hc, ih]

theorem nonempty_segments_nil : nonempty_segments [] = [] := rfl

theorem nonempty_segments_tab (s : List Char) :
    nonempty_segments ('\t' :: s) = nonempty_segments s := by
  simp [nonempty_segments, tab_segments]

theorem nonempty_segments_dropWhile (s : List Char) :
    nonempty_segments (s.dropWhile (fun c => c == '\t')) = nonempty_segments s := by
  induction s with
  | nil => rfl
  | cons c cs ih =>
    by_cases hc : c = '\t'
    · subst hc
      rw [nonempty_segments_tab, ← ih]
      simp [List.dropWhile_cons]
    · simp [List.dropWhile_cons, hc]

theorem nonempty_segments_cons (c : Char) (cs : List Char) (hc : c ≠ '\t') :
    nonempty_segments (c :: cs)
      = (c :: cs).takeWhile (fun c => c != '\t')
        :: nonempty_segments (((c :: cs).dropWhile (fun c => c != '\t')).drop 1) := by
  have hh := tab_segments_head (c :: cs)
  have ht := tab_segments_tail (c :: cs)
  unfold nonempty_segments
  rw [tab_segments_eq_cons (c :: cs), hh, ht]
  have hne : ((c :: cs).takeWhile (fun c => c != '\t')).isEmpty = false := by
    simp [List.takeWhile_cons, hc]
  rw [List.filter_cons, hne]
  simp only [Bool.not_false, if_true]
  split_ifs with hd
  · rw [hd]
    rfl
  · rfl

theorem state_tokens_while_of_cstr (n : Nat) (u : List Char) (hu : cstr u = u) :
    state_tokens_while n u = (nonempty_segments u).take n := by
  induction n generalizing u with
  | zero => simp [state_tokens_while]
  | succ n ih =>
    rw [state_tokens_while, strtok, hu]
    rw [← nonempty_segments_dropWhile u]
    have hs1 : cstr (u.dropWhile (fun c => c == '\t')) = u.dropWhile (fun c => c == '\t') :=
      cstr_of_sublist u _ hu (List.dropWhile_sublist _)
    cases hd : u.dropWhile (fun c => c == '\t') with
    | nil => simp [nonempty_segments_nil]
    | cons c cs =>
      have hc : c ≠ '\t' := by
        have := List.head_dropWhile_not (fun c => c == '\t') u (by rw [hd]; simp)
        simpa [hd] using this
      rw [hd] at hs1
      have hrest : cstr (((c :: cs).dropWhile (fun c => c != '\t')).drop 1)
          = ((c :: cs).dropWhile (fun c => c != '\t')).drop 1 :=
        cstr_of_sublist _ _ hs1 ((List.drop_sublist _ _).trans (List.dropWhile_sublist _))
      rw [nonempty_segments_cons c cs hc]
      simp only [List.cons_ne_nil, if_false, List.take_succ_cons]
      rw [ih _ hrest]

theorem state_tokens_while_cstr (n : Nat) (line : List Char) :
    state_tokens_while n (cstr line) = state_tokens_while n line := by
  cases n with
  | zero => rfl
  | succ n => simp only [state_tokens_while, strtok, cstr_idem]

theorem state_tokens_while_eq_segments (n : Nat) (line : List Char) :
    state_tokens_while n line = (nonempty_segments (cstr line)).take n := by
  rw [← state_tokens_while_cstr, state_tokens_while_of_cstr n _ (cstr_idem line)]

theorem nonempty_segments_eq (s : List Char) :
    nonempty_segments s
      = List.filter (fun t => !t.isEmpty) [(tab_segments s).headD []]
        ++ List.filter (fun t => !t.isEmpty) (tab_segments s).tail := by
  unfold nonempty_segments
  rw [← List.filter_append]
  exact congrArg _ (tab_segments_eq_cons s)

theorem tab_segments_squeeze (s : List Char) :
    (tab_segments (squeeze_tabs s)).headD [] = (tab_segments s).headD [] ∧
    List.filter (fun t => !t.isEmpty) (tab_segments (squeeze_tabs s)).tail
      = List.filter (fun t => !t.isEmpty) (tab_segments s).tail := by
  induction s with
  | nil => exact ⟨rfl, rfl⟩
  | cons c cs ih =>
    obtain ⟨ih1, ih2⟩ := ih
    have hseg : nonempty_segments (squeeze_tabs cs) = nonempty_segments cs := by
      rw [nonempty_segments_eq, nonempty_segments_eq cs, ih1, ih2]
    by_cases hcond : c = '\t' ∧ cs.head? = some '\t'
    · obtain ⟨hc, hhead⟩ := hcond
      subst hc
      have hsq : squeeze_tabs ('\t' :: cs) = squeeze_tabs cs := by
        simp [squeeze_tabs, hhead]
      have hcs : (tab_segments cs).headD [] = [] := by
        cases cs with
        | nil => simp at hhead
        | cons d ds =>
          simp only [List.head?_cons, Option.some.injEq] at hhead
          subst hhead
          simp [tab_segments]
      rw [hsq]
      refine ⟨by rw [ih1, hcs]; simp [tab_segments], ?_⟩
      rw [ih2]
      have h1 : (tab_segments ('\t' :: cs)).tail = tab_segments cs := by simp [tab_segments]
      rw [h1]
      nth_rewrite 2 [tab_segments_eq_cons cs]
      rw [hcs]
      simp
    · have hsq : squeeze_tabs (c :: cs) = c :: squeeze_tabs cs := by
        simp only [squeeze_tabs, hcond, if_false]
      rw [hsq]
      by_cases hc : c = '\t'
      · subst hc
        have h1 : ∀ u, (tab_segments ('\t' :: u)).tail = tab_segments u := by
          intro u
          simp [tab_segments]
        refine ⟨by simp [tab_segments], ?_⟩
        rw [h1, h1]
        exact hseg
      · have h1 : ∀ u, tab_segments (c :: u)
            = (c :: (tab_segments u).headD []) :: (tab_segments u).tail := by
          intro u
          rw [tab_segments]
          simp only [hc, if_false]
        rw [h1, h1]
        exact ⟨by simp only [List.headD_cons, ih1], by simp only [List.tail_cons, ih2]⟩

theorem nonempty_segments_squeeze (s : List Char) :
    nonempty_segments (squeeze_tabs s) = nonempty_segments s := by
  obtain ⟨h1, h2⟩ := tab_segments_squeeze s
  rw [nonempty_segments_eq, nonempty_segments_eq s, h1, h2]

theorem cstr_squeeze (s : List Char) : cstr (squeeze_tabs s) = squeeze_tabs (cstr s) := by
  induction s with
  | nil => rfl
  | cons c cs ih =>
    by_cases hn : c = NUL
    · subst hn
      have hnt : ¬ (NUL = '\t' ∧ cs.head? = some '\t') := by
        intro h
        exact absurd h.1 (by decide)
      simp only [squeeze_tabs, hnt, if_false]
      simp [cstr, squeeze_tabs]
    · have hc1 : cstr (c :: cs) = c :: cstr cs := by
        simp [cstr, List.takeWhile_cons, hn]
      have hhead : (cstr cs).head? = some '\t' ↔ cs.head? = some '\t' := by
        cases cs with
        | nil => simp [cstr]
        | cons d ds =>
          by_cases hd : d = NUL
          · subst hd
            have : NUL ≠ '\t' := by decide
            simp [cstr, List.takeWhile_cons, this]
          · simp [cstr, List.takeWhile_cons, hd]
      rw [hc1]
      by_cases hcond : c = '\t' ∧ cs.head? = some '\t'
      · have hcond2 : c = '\t' ∧ (cstr cs).head? = some '\t' := ⟨hcond.1, hhead.2 hcond.2⟩
        simp only [squeeze_tabs, hcond, hcond2, and_self, if_true]
        exact ih
      · have hcond2 : ¬ (c = '\t' ∧ (cstr cs).head? = some '\t') :=
          fun h => hcond ⟨h.1, hhead.1 h.2⟩
        simp only [squeeze_tabs, hcond, hcond2, if_false]
        rw [← ih]
        simp [cstr, List.takeWhile_cons, hn]

theorem state_tokens_while_squeeze (n : Nat) (line : List Char) :
    state_tokens_while n (squeeze_tabs line) = state_tokens_while n line := by
  rw [state_tokens_while_eq_segments, state_tokens_while_eq_segments n line, cstr_squeeze,
    nonempty_segments_squeeze]

theorem squeeze_tabs_double (a b : List Char) :
    squeeze_tabs (a ++ '\t' :: '\t' :: b) = squeeze_tabs (a ++ '\t' :: b) := by
  induction a with
  | nil => simp [squeeze_tabs]
  | cons c cs ih =>
    have hhead : (cs ++ '\t' :: '\t' :: b).head? = (cs ++ '\t' :: b).head? := by
      cases cs <;> rfl
    show squeeze_tabs (c :: (cs ++ '\t' :: '\t' :: b)) = squeeze_tabs (c :: (cs ++ '\t' :: b))
    rw [squeeze_tabs, squeeze_tabs, hhead, ih]

/-- C19 (empty fields are skipped): for every line, the tokens stored by `state_tokens` are
the first (at most 9) non-empty maximal tab-free segments of the line; hence the line with
each run of tabs replaced by a single tab gives the same tokens, and an empty field (two tabs
in a row) gives the tokens of the line without it, every later field moving one position to
the left. -/
theorem empty_fields_are_skipped (line : List Char) :
    state_tokens_while 9 line = (nonempty_segments (cstr line)).take 9 ∧
    state_tokens_while 9 (squeeze_tabs line) = state_tokens_while 9 line ∧
    ∀ a b : List Char,
      state_tokens_while 9 (a ++ '\t' :: '\t' :: b) = state_tokens_while 9 (a ++ '\t' :: b) := by
  refine ⟨state_tokens_while_eq_segments 9 line, state_tokens_while_squeeze 9 line, ?_⟩
  intro a b
  rw [← state_tokens_while_squeeze, squeeze_tabs_double, state_tokens_while_squeeze]

theorem tab_segments_append_tab (u v : List Char) :
    tab_segments (u ++ '\t' :: v) = tab_segments u ++ tab_segments v := by
  induction u with
  | nil => simp [tab_segments]
  | cons c cs ih =>
    by_cases hc : c = '\t'
    · simp [tab_segments, hc, ih]
    · have h1 : ∀ w, tab_segments (c :: w)
          = (c :: (tab_segments w).headD []) :: (tab_segments w).tail := by
        intro w
        rw [tab_segments]
        simp only [hc, if_false]
      rw [List.cons_append, h1, h1, ih, tab_segments_eq_cons cs]
      simp

theorem nonempty_segments_append_tab (u v : List Char) :
    nonempty_segments (u ++ '\t' :: v) = nonempty_segments u ++ nonempty_segments v := by
  simp [nonempty_segments, tab_segments_append_tab]

theorem cstr_append (u v : List Char) :
    cstr (u ++ v) = if cstr u = u then u ++ cstr v else cstr u := by
  induction u with
  | nil => simp [cstr]
  | cons c cs ih =>
    by_cases hn : c = NUL
    · subst hn
      simp [cstr]
    · have h1 : ∀ w, cstr (c :: w) = c :: cstr w := by
        intro w
        simp [cstr, List.takeWhile_cons, hn]
      rw [List.cons_append, h1, h1, ih]
      by_cases hcs : cstr cs = cs <;> simp [hcs]

theorem state_tokens_while_append_tab (n : Nat) (line extra : List Char)
    (h : (state_tokens_while n line).length = n) :
    state_tokens_while n (line ++ '\t' :: extra) = state_tokens_while n line := by
  rw [state_tokens_while_eq_segments] at h ⊢
  rw [state_tokens_while_eq_segments n line, cstr_append]
  split_ifs with hl
  · have ht : cstr ('\t' :: extra) = '\t' :: cstr extra := by
      have : ('\t' != NUL) = true := by decide
      simp [cstr, List.takeWhile_cons, this]
    rw [ht, nonempty_segments_append_tab, hl]
    rw [hl] at h
    have hlen : n ≤ (nonempty_segments line).length := by
      rw [List.length_take] at h
      omega
    exact List.take_append_of_le_length hlen
  · rfl

/-- C15 (fields beyond the ninth are ignored): for every line with at least 9 non-empty
tab-separated fields, the line followed by a tab and any further text gives the same 9 tokens
and the same record. -/
theorem fields_beyond_ninth_ignored (mem : climate_info) (line extra : List Char)
    (h : (state_tokens_while 9 line).length = 9) :
    state_tokens_while 9 (line ++ '\t' :: extra) = state_tokens_while 9 line ∧
    state_tokens mem (line ++ '\t' :: extra) = state_tokens mem line ∧
    ∃ o, state_tokens mem line = some o := by
  have ht := state_tokens_while_append_tab 9 line extra h
  refine ⟨ht, ?_, ?_⟩
  · unfold state_tokens
    rw [ht]
  · have h8 : (state_tokens_while 9 line)[8]?
        = some ((state_tokens_while 9 line)[8]?.getD []) := by
      have hk : 8 < (state_tokens_while 9 line).length := by omega
      simp [List.getElem?_eq_getElem hk]
    obtain ⟨t0, t1, t3, t4, t5, t6, t7, -, -, -, -, -, -, -, hs⟩ :=
      state_tokens_some_of_ninth mem line _ h8
    exact ⟨_, hs⟩

/-- Witness of C15: the first sample line followed by two more fields. -/
theorem fields_beyond_ninth_ignored_witness :
    (state_tokens_while 9 sample_line_1).length = 9 ∧
    (state_tokens_while 9 (sample_line_1 ++ '\t' :: "extra\t12.5\n".toList)
        = state_tokens_while 9 sample_line_1 ∧
      state_tokens zero_mem (sample_line_1 ++ '\t' :: "extra\t12.5\n".toList)
        = state_tokens zero_mem sample_line_1 ∧
      ∃ o, state_tokens zero_mem sample_line_1 = some o) :=
  ⟨by decide, fields_beyond_ninth_ignored zero_mem sample_line_1 "extra\t12.5\n".toList
    (by decide)⟩

/-! ## The Kelvin example -/

theorem atof_sample_kelvin : atof "277.58716\n".toList = 27758716 / 100000 := by
  rw [atof_of_parts _ false 27758716 (-5) (by decide)]
  norm_num [decimal_to_rat, Int.toNat]

/-- C16 (Kelvin example) fails on the code: the record parsed from the first sample line, whose
temperature field is 277.58716, has a temperature outside the interval [39.9769, 39.9770). -/
theorem sample_temperature_outside_interval :
    (state_tokens_while 9 sample_line_1)[8]? = some "277.58716\n".toList ∧
    ∃ o, state_tokens zero_mem sample_line_1 = some o ∧
      ¬ (399769 / 10000 ≤ o.temp ∧ o.temp < 39977 / 1000) := by
  refine ⟨by decide, sample_state_1, state_tokens_sample_1_zero, ?_⟩
  norm_num [sample_state_1]

/-- C16 as amended: parsing a record whose temperature field is 277.58716 (Kelvin) yields the
Fahrenheit temperature 277.58716 * 1.8 - 459.67 = 39.986888, whose decimal expansion begins
39.9868, i.e. a value in the interval [39.9868, 39.9869). -/
theorem kelvin_example (mem : climate_info) (line t8 : List Char)
    (h : (state_tokens_while 9 line)[8]? = some t8) (hk : atof t8 = 27758716 / 100000) :
    ∃ o, state_tokens mem line = some o ∧
      o.temp = 39986888 / 1000000 ∧
      399868 / 10000 ≤ o.temp ∧ o.temp < 399869 / 10000 := by
  obtain ⟨t0, t1, t3, t4, t5, t6, t7, -, -, -, -, -, -, -, hs⟩ :=
    state_tokens_some_of_ninth mem line t8 h
  refine ⟨_, hs, ?_, ?_, ?_⟩ <;>
  · simp only [hk]
    norm_num

/-- Witness of C16 as amended: the first sample line. -/
theorem kelvin_example_witness :
    (state_tokens_while 9 sample_line_1)[8]? = some "277.58716\n".toList ∧
    atof "277.58716\n".toList = 27758716 / 100000 ∧
    ∃ o, state_tokens zero_mem sample_line_1 = some o ∧
      o.temp = 39986888 / 1000000 ∧
      399868 / 10000 ≤ o.temp ∧ o.temp < 399869 / 10000 :=
  ⟨by decide, atof_sample_kelvin,
    kelvin_example zero_mem sample_line_1 "277.58716\n".toList (by decide) atof_sample_kelvin⟩

/-! ## A full table, and the slots that an ingest leaves alone -/

theorem scan_length (states : States) (state : climate_info) :
    (scan states state).length = states.length := by
  induction states with
  | nil => rfl
  | cons x rest ih =>
    cases x with
    | none => simp [scan]
    | some s => by_cases hc : strcmp s.code state.code = 0 <;> simp [scan, hc, ih]

theorem scan_full_no_match (states : States) (state : climate_info)
    (h : ∀ s ∈ states, ∃ e, s = some e ∧ strcmp e.code state.code ≠ 0) :
    scan states state = states := by
  induction states with
  | nil => rfl
  | cons x rest ih =>
    obtain ⟨e, hx, hne⟩ := h x (List.mem_cons_self _ _)
    subst hx
    have hrest := ih (fun s hs => h s (List.mem_cons_of_mem _ hs))
    simp [scan, hne, hrest]

theorem scan_other_entries (states : States) (state : climate_info) (i : Nat)
    (e : climate_info) (hi : states[i]? = some (some e)) (hne : strcmp e.code state.code ≠ 0) :
    (scan states state)[i]? = some (some e) := by
  induction states generalizing i with
  | nil => simp at hi
  | cons x rest ih =>
    cases x with
    | none =>
      cases i with
      | zero => simp at hi
      | succ k => simpa [scan] using hi
    | some s =>
      by_cases hc : strcmp s.code state.code = 0
      · cases i with
        | zero =>
          simp only [List.getElem?_cons_zero, Option.some.injEq] at hi
          subst hi
          exact absurd hc hne
        | succ k => simpa [scan, hc] using hi
      · cases i with
        | zero => simpa [scan, hc] using hi
        | succ k =>
          simp only [List.getElem?_cons_succ] at hi
          simpa [scan, hc] using ih k hi

theorem scan_one_slot (states : States) (state : climate_info) :
    ∃ i : Nat, ∀ j : Nat, j ≠ i → (scan states state)[j]? = states[j]? := by
  induction states with
  | nil => exact ⟨0, fun j _ => rfl⟩
  | cons x rest ih =>
    cases x with
    | none =>
      refine ⟨0, fun j hj => ?_⟩
      cases j with
      | zero => exact absurd rfl hj
      | succ k => simp [scan]
    | some s =>
      by_cases hc : strcmp s.code state.code = 0
      · refine ⟨0, fun j hj => ?_⟩
        cases j with
        | zero => exact absurd rfl hj
        | succ k => simp [scan, hc]
      · obtain ⟨i, hi⟩ := ih
        refine ⟨i + 1, fun j hj => ?_⟩
        cases j with
        | zero => simp [scan, hc]
        | succ k =>
          have hk : k ≠ i := fun h => hj (by rw [h])
          simpa [scan, hc] using hi k hk

theorem scan_slot_persists (states : States) (state : climate_info) (i : Nat)
    (e : climate_info) (hi : states[i]? = some (some e)) :
    ∃ e2, (scan states state)[i]? = some (some e2) ∧ e2.code = e.code := by
  induction states generalizing i with
  | nil => simp at hi
  | cons x rest ih =>
    cases x with
    | none =>
      cases i with
      | zero => simp at hi
      | succ k => exact ⟨e, by simpa [scan] using hi, rfl⟩
    | some s =>
      by_cases hc : strcmp s.code state.code = 0
      · cases i with
        | zero =>
          simp only [List.getElem?_cons_zero, Option.some.injEq] at hi
          subst hi
          exact ⟨_, by simp [scan, hc], add_stateinfo_record_code s state⟩
        | succ k => exact ⟨e, by simpa [scan, hc] using hi, rfl⟩
      · cases i with
        | zero => exact ⟨e, by simpa [scan, hc] using hi, rfl⟩
        | succ k =>
          simp only [List.getElem?_cons_succ] at hi
          obtain ⟨e2, h2, hcode⟩ := ih k hi
          exact ⟨e2, by simpa [scan, hc] using h2, hcode⟩

theorem full_states_no_match (s : Option climate_info) (hs : s ∈ full_states) :
    ∃ e, s = some e ∧ strcmp e.code sample_state_1.code ≠ 0 := by
  simp only [full_states, List.mem_map, List.mem_range] at hs
  obtain ⟨i, hi, rfl⟩ := hs
  refine ⟨_, rfl, ?_⟩
  interval_cases i <;> decide

/-- C17 (fifty-region ceiling): for every table whose `NUM_STATES` slots are all occupied and
every record whose code equals none of the stored codes, the loop of `analyze_file` leaves the
table as it is, and the analysis of the line of that record returns that same table: the record
is dropped and nothing is signalled. -/
theorem fifty_region_ceiling (states : States) (o : climate_info)
    (hlen : states.length = NUM_STATES)
    (hfull : ∀ s ∈ states, ∃ e, s = some e ∧ strcmp e.code o.code ≠ 0) :
    ingest states o = states ∧
    ∀ (heap : Nat → climate_info) (k : Nat) (line : List Char),
      state_tokens (heap k) line = some o →
      analyze_file_while heap NUM_STATES k [line] states = some states := by
  have h1 : ingest states o = states := by
    rw [ingest_eq_scan states o hlen]
    exact scan_full_no_match states o hfull
  refine ⟨h1, fun heap k line hs => ?_⟩
  rw [analyze_file_while_single heap k line states o hs, h1]

/-- Witness of C17: the record of the first sample line (region CA) and a table filled with the
regions AA to BX. -/
theorem fifty_region_ceiling_witness :
    full_states.length = NUM_STATES ∧
    (∀ s ∈ full_states, ∃ e, s = some e ∧ strcmp e.code sample_state_1.code ≠ 0) ∧
    ingest full_states sample_state_1 = full_states ∧
    ∀ (heap : Nat → climate_info) (k : Nat) (line : List Char),
      state_tokens (heap k) line = some sample_state_1 →
      analyze_file_while heap NUM_STATES k [line] full_states = some full_states :=
  ⟨rfl, full_states_no_match,
    fifty_region_ceiling full_states sample_state_1 rfl full_states_no_match⟩

/-- C18 (frame): for every table and every record with region code `c`, the ingest keeps the
number of slots, leaves every entry whose code differs from `c` as it is, in its slot, and
changes at most one slot of the table. -/
theorem ingest_frame (states : States) (o : climate_info) (hlen : states.length = NUM_STATES) :
    (ingest states o).length = states.length ∧
    (∀ (i : Nat) (e : climate_info), states[i]? = some (some e) → strcmp e.code o.code ≠ 0 →
      (ingest states o)[i]? = some (some e)) ∧
    ∃ i : Nat, ∀ j : Nat, j ≠ i → (ingest states o)[j]? = states[j]? := by
  rw [ingest_eq_scan states o hlen]
  exact ⟨scan_length states o, fun i e hi hne => scan_other_entries states o i e hi hne,
    scan_one_slot states o⟩

/-- Witness of C18: a record of region CA ingested into `two_region_states`.  The entry of
region WA, in slot 0, has another code and is unchanged in its slot; the entry of region CA, in
slot 1, is the one slot that changes. -/
theorem ingest_frame_witness :
    two_region_states.length = NUM_STATES ∧
    two_region_states[0]? = some (some { sample_state_wa with num_records := 1 }) ∧
    strcmp ({ sample_state_wa with num_records := 1 } : climate_info).code sample_state_2.code
      ≠ 0 ∧
    (ingest two_region_states sample_state_2)[0]?
      = some (some { sample_state_wa with num_records := 1 }) ∧
    (ingest two_region_states sample_state_2)[1]?
      = some (some (add_stateinfo_record { sample_state_1 with num_records := 1 }
          sample_state_2)) ∧
    (ingest two_region_states sample_state_2).length = two_region_states.length ∧
    (∀ (i : Nat) (e : climate_info), two_region_states[i]? = some (some e) →
      strcmp e.code sample_state_2.code ≠ 0 →
      (ingest two_region_states sample_state_2)[i]? = some (some e)) ∧
    ∃ i : Nat, ∀ j : Nat, j ≠ i →
      (ingest two_region_states sample_state_2)[j]? = two_region_states[j]? :=
  ⟨rfl, rfl, by decide,
    (ingest_frame two_region_states sample_state_2 rfl).2.1 0 _ rfl (by decide), rfl,
    ingest_frame two_region_states sample_state_2 rfl⟩

/-! ## Order of the entries -/

theorem foldl_upsert_keys_order (obs es : List climate_info) :
    (obs.foldl upsert es).map (fun e => cstr e.code)
      = es.map (fun e => cstr e.code)
        ++ (first_occurrences (obs.map (fun o => cstr o.code))).filter
            (fun y => decide (y ∉ es.map (fun e => cstr e.code))) := by
  induction obs generalizing es with
  | nil => simp [first_occurrences]
  | cons o rest ih =>
    rw [List.foldl_cons, ih, upsert_keys]
    simp only [List.map_cons, first_occurrences]
    by_cases hk : cstr o.code ∈ es.map (fun e => cstr e.code)
    · simp only [hk, if_true]
      rw [List.filter_cons]
      simp only [hk, not_true_eq_false, decide_False, Bool.false_eq_true, if_false,
        List.filter_filter]
      congr 1
      apply List.filter_congr
      intro y _
      by_cases hy : y ∈ es.map (fun e => cstr e.code)
      · simp [hy]
      · have hne : y ≠ cstr o.code := fun h => hy (h ▸ hk)
        simp [hy, hne]
    · simp only [hk, if_false]
      rw [List.filter_cons]
      simp only [hk, not_false_eq_true, decide_True, if_true, List.filter_filter,
        List.append_assoc, List.singleton_append]
      congr 2
      apply List.filter_congr
      intro y _
      by_cases hy : y ∈ es.map (fun e => cstr e.code) <;>
        by_cases hne : y = cstr o.code <;> simp [hy, hne]

theorem foldl_upsert_keys_first (obs : List climate_info) :
    (obs.foldl upsert []).map (fun e => cstr e.code)
      = first_occurrences (obs.map (fun o => cstr o.code)) := by
  rw [foldl_upsert_keys_order]
  simp

theorem print_report_states_found_eq (states : States) (n i : Nat)
    (h : i + n = states.length) :
    print_report_states_found states n i
      = (states.drop i).filterMap (fun s => s.map (fun info => cstr info.code)) := by
  induction n generalizing i with
  | zero =>
    have hi : states.length ≤ i := by omega
    simp [print_report_states_found, List.drop_eq_nil_of_le hi]
  | succ n ih =>
    have hi : i < states.length := by omega
    have hd : states.drop i = states[i] :: states.drop (i + 1) := List.drop_eq_getElem_cons hi
    have hg : states[i]? = some states[i] := List.getElem?_eq_getElem hi
    rw [print_report_states_found, hd, hg, ih (i + 1) (by omega)]
    cases states[i] <;> simp [List.filterMap_cons]

theorem print_report_states_found_pad (n : Nat) (es : List climate_info) (h : es.length ≤ n) :
    print_report_states_found (pad n es) n 0 = es.map (fun e => cstr e.code) := by
  rw [print_report_states_found_eq _ n 0 (by rw [pad_length n es h]; omega)]
  simp only [List.drop_zero, pad, List.filterMap_append]
  have h1 : ∀ k : Nat, (List.replicate k (none : Option climate_info)).filterMap
      (fun s => s.map (fun info => cstr info.code)) = [] := by
    intro k
    induction k with
    | zero => rfl
    | succ k ih => simp [List.replicate_succ, List.filterMap_cons, ih]
  rw [h1, List.append_nil, List.filterMap_map]
  induction es with
  | nil => rfl
  | cons e rest ih => simp [List.filterMap_cons] at ih ⊢

/-- C14 (insertion order and persistence): for every sequence of records with at most
`NUM_STATES` distinct region codes ingested into the empty table, the occupied slots are the
first slots of the table and hold the distinct region codes in the order of their first
occurrence in the input, which is the order in which `print_report` lists them; and after the
ingest of one more record every entry is still in its slot, with its code. -/
theorem insertion_order_kept (obs : List climate_info)
    (hd : (obs.map (fun o => cstr o.code)).toFinset.card ≤ NUM_STATES) :
    ∃ es : List climate_info, es.length ≤ NUM_STATES ∧
      ingest_all empty_states obs
        = es.map some ++ List.replicate (NUM_STATES - es.length) none ∧
      es.map (fun e => cstr e.code) = first_occurrences (obs.map (fun o => cstr o.code)) ∧
      print_report_states_found (ingest_all empty_states obs) NUM_STATES 0
        = first_occurrences (obs.map (fun o => cstr o.code)) ∧
      ∀ (o : climate_info) (i : Nat) (e : climate_info),
        (ingest_all empty_states obs)[i]? = some (some e) →
        ∃ e2, (ingest (ingest_all empty_states obs) o)[i]? = some (some e2) ∧
          e2.code = e.code := by
  have hlen : (obs.foldl upsert []).length ≤ NUM_STATES := by
    rw [foldl_upsert_length]
    exact hd
  have ht : ingest_all empty_states obs = pad NUM_STATES (obs.foldl upsert []) := by
    rw [empty_states_eq_pad, ingest_all_pad obs [] hlen]
  refine ⟨obs.foldl upsert [], hlen, ht, foldl_upsert_keys_first obs, ?_, ?_⟩
  · rw [ht, print_report_states_found_pad _ _ hlen, foldl_upsert_keys_first]
  · intro o i e hi
    rw [ht] at hi ⊢
    rw [ingest_eq_scan _ _ (pad_length _ _ hlen)]
    exact scan_slot_persists _ o i e hi

/-- Witness of C14: the two sample records of region CA with a record of region WA between
them. -/
theorem insertion_order_kept_witness :
    (([sample_state_1, sample_state_wa, sample_state_2].map
        (fun o => cstr o.code)).toFinset.card ≤ NUM_STATES) ∧
    ∃ es : List climate_info, es.length ≤ NUM_STATES ∧
      ingest_all empty_states [sample_state_1, sample_state_wa, sample_state_2]
        = es.map some ++ List.replicate (NUM_STATES - es.length) none ∧
      es.map (fun e => cstr e.code)
        = first_occurrences ([sample_state_1, sample_state_wa, sample_state_2].map
            (fun o => cstr o.code)) ∧
      print_report_states_found
          (ingest_all empty_states [sample_state_1, sample_state_wa, sample_state_2])
          NUM_STATES 0
        = first_occurrences ([sample_state_1, sample_state_wa, sample_state_2].map
            (fun o => cstr o.code)) ∧
      ∀ (o : climate_info) (i : Nat) (e : climate_info),
        (ingest_all empty_states [sample_state_1, sample_state_wa, sample_state_2])[i]?
          = some (some e) →
        ∃ e2, (ingest (ingest_all empty_states
            [sample_state_1, sample_state_wa, sample_state_2]) o)[i]? = some (some e2) ∧
          e2.code = e.code :=
  ⟨by decide,
    insertion_order_kept [sample_state_1, sample_state_wa, sample_state_2] (by decide)⟩

/-! ## Several files -/

theorem fgets_lines_append (n : Nat) (A0 B cur : List Char) :
    fgets_lines n (A0 ++ '\n' :: B) cur
      = fgets_lines n (A0 ++ ['\n']) cur ++ fgets_lines n B [] := by
  induction A0 generalizing cur with
  | nil => simp [fgets_lines]
  | cons c cs ih =>
    simp only [List.cons_append, fgets_lines, List.append_eq]
    split_ifs
    · rw [ih]
      rfl
    · exact ih _

theorem analyze_file_while_append (heap : Nat → climate_info) (n k : Nat)
    (l1 l2 : List (List Char)) (states : States) :
    analyze_file_while heap n k (l1 ++ l2) states
      = (analyze_file_while heap n k l1 states).bind
          (analyze_file_while heap n (k + l1.length) l2) := by
  induction l1 generalizing k states with
  | nil => simp [analyze_file_while]
  | cons line rest ih =>
    simp only [List.cons_append, analyze_file_while, List.length_cons, List.append_eq]
    cases state_tokens (heap k) line with
    | none => rfl
    | some o =>
      simp only
      rw [ih]
      have : k + 1 + rest.length = k + (rest.length + 1) := by omega
      rw [this]

theorem analyze_file_while_shift (heap : Nat → climate_info) (n k m : Nat)
    (lines : List (List Char)) (states : States) :
    analyze_file_while (fun j => heap (j + m)) n k lines states
      = analyze_file_while heap n (k + m) lines states := by
  induction lines generalizing k states with
  | nil => rfl
  | cons line rest ih =>
    simp only [analyze_file_while]
    cases state_tokens (heap (k + m)) line with
    | none => rfl
    | some o =>
      simp only
      rw [ih]
      have : k + 1 + m = k + m + 1 := by omega
      rw [this]

theorem analyze_file_while_eq_parse (heap : Nat → climate_info) (k : Nat)
    (lines : List (List Char)) (states : States) :
    analyze_file_while heap NUM_STATES k lines states
      = (parse_lines heap k lines).map (ingest_all states) := by
  induction lines generalizing k states with
  | nil => rfl
  | cons line rest ih =>
    simp only [analyze_file_while, parse_lines]
    cases state_tokens (heap k) line with
    | none => rfl
    | some o =>
      simp only
      rw [ih]
      cases parse_lines heap (k + 1) rest <;> rfl

theorem parse_lines_append (heap : Nat → climate_info) (k : Nat) (l1 l2 : List (List Char))
    (o1 o2 : List climate_info) (h1 : parse_lines heap k l1 = some o1)
    (h2 : parse_lines heap (k + l1.length) l2 = some o2) :
    parse_lines heap k (l1 ++ l2) = some (o1 ++ o2) := by
  induction l1 generalizing k o1 with
  | nil =>
    simp only [parse_lines, Option.some.injEq] at h1
    subst h1
    simpa using h2
  | cons line rest ih =>
    simp only [parse_lines] at h1
    simp only [List.cons_append, parse_lines, List.append_eq]
    cases hs : state_tokens (heap k) line with
    | none => simp [hs] at h1
    | some o =>
      rw [hs] at h1
      simp only at h1 ⊢
      cases hp : parse_lines heap (k + 1) rest with
      | none => simp [hp] at h1
      | some os =>
        rw [hp] at h1
        simp only [Option.some.injEq] at h1
        subst h1
        have h2b : parse_lines heap (k + 1 + rest.length) l2 = some o2 := by
          have : k + 1 + rest.length = k + (line :: rest).length := by
            simp only [List.length_cons]
            omega
          rw [this]
          exact h2
        rw [ih (k + 1) os hp h2b]
        rfl

theorem main_for_two (heap : Nat → climate_info) (A B : List Char) (states : States)
    (hA : A = [] ∨ ∃ A0, A = A0 ++ ['\n']) :
    main_for heap [A, B] states = analyze_file heap (A ++ B) states NUM_STATES := by
  have hsplit : fgets_lines 100 (A ++ B) [] = fgets_lines 100 A [] ++ fgets_lines 100 B [] := by
    rcases hA with h | ⟨A0, h⟩
    · subst h
      simp [fgets_lines]
    · subst h
      rw [List.append_assoc, List.singleton_append]
      exact fgets_lines_append 100 A0 B []
  unfold analyze_file
  rw [hsplit, analyze_file_while_append]
  simp only [main_for, analyze_file]
  cases analyze_file_while heap NUM_STATES 0 (fgets_lines 100 A []) states with
  | none => rfl
  | some s =>
    simp only [Option.some_bind]
    rw [analyze_file_while_shift]
    cases analyze_file_while heap NUM_STATES (0 + (fgets_lines 100 A []).length)
      (fgets_lines 100 B []) s <;> rfl

theorem pad_getElem_some (n : Nat) (es : List climate_info) (i : Nat) (e : climate_info)
    (h : (pad n es)[i]? = some (some e)) : es[i]? = some e := by
  unfold pad at h
  by_cases hi : i < es.length
  · rw [List.getElem?_append_left (by simpa using hi)] at h
    simpa using h
  · rw [List.getElem?_append_right (by simpa using hi)] at h
    rw [List.getElem?_eq_some_iff] at h
    obtain ⟨_, h2⟩ := h
    simp at h2

theorem pad_entries_distinct (n : Nat) (es : List climate_info)
    (hn : (es.map (fun e => cstr e.code)).Nodup) (i j : Nat) (e1 e2 : climate_info)
    (h1 : (pad n es)[i]? = some (some e1)) (h2 : (pad n es)[j]? = some (some e2))
    (hc : strcmp e1.code e2.code = 0) : i = j := by
  have g1 := pad_getElem_some n es i e1 h1
  have g2 := pad_getElem_some n es j e2 h2
  have k1 : (es.map (fun e => cstr e.code))[i]? = some (cstr e1.code) := by
    simp [List.getElem?_map, g1]
  have k2 : (es.map (fun e => cstr e.code))[j]? = some (cstr e1.code) := by
    simp [List.getElem?_map, g2, (strcmp_eq_zero_iff _ _).1 hc]
  rw [List.getElem?_eq_some_iff] at k1 k2
  obtain ⟨hi, k1⟩ := k1
  obtain ⟨hj, k2⟩ := k2
  exact (List.Nodup.getElem_inj_iff hn).1 (k1.trans k2.symm)

theorem fgets_lines_concat (A B : List Char) (hA : A = [] ∨ ∃ A0, A = A0 ++ ['\n']) :
    fgets_lines 100 (A ++ B) [] = fgets_lines 100 A [] ++ fgets_lines 100 B [] := by
  rcases hA with h | ⟨A0, h⟩
  · subst h
    simp [fgets_lines]
  · subst h
    rw [List.append_assoc, List.singleton_append]
    exact fgets_lines_append 100 A0 B []

theorem find_state_ingest_all_count (obs : List climate_info) (c : List Char)
    (hd : (obs.map (fun o => cstr o.code)).toFinset.card ≤ NUM_STATES)
    (hc : ∃ o ∈ obs, strcmp o.code c = 0) :
    ∃ e, find_state (ingest_all empty_states obs) c = some e ∧
      e.num_records = (obs.filter (fun o => strcmp o.code c = 0)).length := by
  rw [find_state_ingest_all obs c hd]
  obtain ⟨o, ho, hoc⟩ := hc
  have hmem : o ∈ obs.filter (fun o => strcmp o.code c = 0) := by
    simp [List.mem_filter, ho, hoc]
  cases hf : obs.filter (fun o => strcmp o.code c = 0) with
  | nil => rw [hf] at hmem; simp at hmem
  | cons o1 rest =>
    refine ⟨rest.foldl add_stateinfo_record { o1 with num_records := 1 }, ?_, ?_⟩
    · rw [List.foldl_cons]
      exact foldl_fold_region_some rest _
    · rw [(foldl_record_totals rest { o1 with num_records := 1 }).1]
      simp only [List.length_cons]
      omega

theorem sample_line_1_ends_with_newline :
    sample_line_1
      = "CA\t1428300000000\t9prc\t93.0\t0.0\t100.0\t0.0\t95644.0\t277.58716".toList ++ ['\n'] := by
  decide

theorem parse_sample_file_1 :
    parse_lines (fun _ => zero_mem) 0 (fgets_lines 100 sample_line_1 [])
      = some [sample_state_1] := by
  have hl : fgets_lines 100 sample_line_1 [] = [sample_line_1] := by decide
  rw [hl]
  simp [parse_lines, state_tokens_sample_1_zero]

theorem parse_sample_file_2 :
    parse_lines (fun _ => zero_mem) (fgets_lines 100 sample_line_1 []).length
      (fgets_lines 100 sample_line_2 []) = some [sample_state_2] := by
  have hl : fgets_lines 100 sample_line_2 [] = [sample_line_2] := by decide
  rw [hl]
  simp [parse_lines, state_tokens_sample_2_zero]

/-- C13 (multi-file merge): for two files `A` and `B` of lines that parse (`A` empty or ending
with a newline), with at most `NUM_STATES` distinct region codes in total, `main` on `A` then
`B` yields, from any table, what the analysis of the file `A ++ B` yields; from the empty table
it yields a table with at most one entry per region code, in which the entry of a region has
for record count the number of its records in `A` plus the number in `B`. -/
theorem multi_file_merge (heap : Nat → climate_info) (A B : List Char)
    (obsA obsB : List climate_info) (hA : A = [] ∨ ∃ A0, A = A0 ++ ['\n'])
    (hpA : parse_lines heap 0 (fgets_lines 100 A []) = some obsA)
    (hpB : parse_lines heap (fgets_lines 100 A []).length (fgets_lines 100 B []) = some obsB)
    (hd : ((obsA ++ obsB).map (fun o => cstr o.code)).toFinset.card ≤ NUM_STATES) :
    (∀ states, main_for heap [A, B] states = analyze_file heap (A ++ B) states NUM_STATES) ∧
    ∃ t, main_for heap [A, B] empty_states = some t ∧
      analyze_file heap (A ++ B) empty_states NUM_STATES = some t ∧
      (∀ (i j : Nat) (e1 e2 : climate_info), t[i]? = some (some e1) → t[j]? = some (some e2) →
        strcmp e1.code e2.code = 0 → i = j) ∧
      ∀ c, (∃ o ∈ obsA ++ obsB, strcmp o.code c = 0) →
        ∃ e, find_state t c = some e ∧
          e.num_records = (obsA.filter (fun o => strcmp o.code c = 0)).length
            + (obsB.filter (fun o => strcmp o.code c = 0)).length := by
  have hall : ∀ states, main_for heap [A, B] states
      = analyze_file heap (A ++ B) states NUM_STATES :=
    fun states => main_for_two heap A B states hA
  have hpar : parse_lines heap 0 (fgets_lines 100 (A ++ B) []) = some (obsA ++ obsB) := by
    rw [fgets_lines_concat A B hA]
    exact parse_lines_append heap 0 _ _ obsA obsB hpA (by simpa using hpB)
  have hfile : analyze_file heap (A ++ B) empty_states NUM_STATES
      = some (ingest_all empty_states (obsA ++ obsB)) := by
    unfold analyze_file
    rw [analyze_file_while_eq_parse, hpar]
    rfl
  have hlen : ((obsA ++ obsB).foldl upsert []).length ≤ NUM_STATES := by
    rw [foldl_upsert_length]
    exact hd
  have ht : ingest_all empty_states (obsA ++ obsB)
      = pad NUM_STATES ((obsA ++ obsB).foldl upsert []) := by
    rw [empty_states_eq_pad, ingest_all_pad _ [] hlen]
  refine ⟨hall, _, (hall empty_states).trans hfile, hfile, ?_, ?_⟩
  · intro i j e1 e2 h1 h2 hc
    rw [ht] at h1 h2
    exact pad_entries_distinct _ _ (foldl_upsert_keys (obsA ++ obsB) [] (by simp)).1
      i j e1 e2 h1 h2 hc
  · intro c hc
    obtain ⟨e, he, hcount⟩ := find_state_ingest_all_count (obsA ++ obsB) c hd hc
    exact ⟨e, he, by rw [hcount, List.filter_append, List.length_append]⟩

/-- Witness of C13: two files of one line each, the two sample lines, both of region CA. -/
theorem multi_file_merge_witness :
    (sample_line_1 = [] ∨ ∃ A0, sample_line_1 = A0 ++ ['\n']) ∧
    parse_lines (fun _ => zero_mem) 0 (fgets_lines 100 sample_line_1 [])
      = some [sample_state_1] ∧
    parse_lines (fun _ => zero_mem) (fgets_lines 100 sample_line_1 []).length
      (fgets_lines 100 sample_line_2 []) = some [sample_state_2] ∧
    ((([sample_state_1] ++ [sample_state_2]).map (fun o => cstr o.code)).toFinset.card
      ≤ NUM_STATES) ∧
    (∀ states, main_for (fun _ => zero_mem) [sample_line_1, sample_line_2] states
      = analyze_file (fun _ => zero_mem) (sample_line_1 ++ sample_line_2) states NUM_STATES) ∧
    ∃ t, main_for (fun _ => zero_mem) [sample_line_1, sample_line_2] empty_states = some t ∧
      analyze_file (fun _ => zero_mem) (sample_line_1 ++ sample_line_2) empty_states NUM_STATES
        = some t ∧
      (∀ (i j : Nat) (e1 e2 : climate_info), t[i]? = some (some e1) → t[j]? = some (some e2) →
        strcmp e1.code e2.code = 0 → i = j) ∧
      ∀ c, (∃ o ∈ [sample_state_1] ++ [sample_state_2], strcmp o.code c = 0) →
        ∃ e, find_state t c = some e ∧
          e.num_records = ([sample_state_1].filter (fun o => strcmp o.code c = 0)).length
            + ([sample_state_2].filter (fun o => strcmp o.code c = 0)).length :=
  ⟨Or.inr ⟨_, sample_line_1_ends_with_newline⟩, parse_sample_file_1, parse_sample_file_2,
    by decide,
    multi_file_merge (fun _ => zero_mem) sample_line_1 sample_line_2 [sample_state_1]
      [sample_state_2] (Or.inr ⟨_, sample_line_1_ends_with_newline⟩) parse_sample_file_1
      parse_sample_file_2 (by decide)⟩


/-! ## The snow and lightning counters are of type `int` -/

theorem create_state_ints (mem : climate_info) (line : List Char) (o : climate_info)
    (h : state_tokens mem line = some o) : is_int o.snow ∧ is_int o.lightning := by
  have hrange : ∀ s, is_int (atof_to_int s) := by
    intro s
    unfold atof_to_int
    have hd : ∀ q, is_int (double_to_int q) := by
      intro q
      unfold double_to_int
      simp only
      generalize (if 0 ≤ q then ⌊q⌋ else ⌈q⌉) = t
      by_cases hr : -(2 ^ 31) ≤ t ∧ t < 2 ^ 31
      · rw [if_pos hr]
        exact hr
      · rw [if_neg hr]
        unfold is_int
        decide
    split
    · unfold is_int; decide
    · unfold is_int; decide
    · exact hd _
  unfold state_tokens create_state at h
  simp only [Option.bind_eq_bind, Option.bind_eq_some] at h
  obtain ⟨t0, -, t1, -, t3, -, t4, -, t5, -, t6, -, t7, -, t8, -, h⟩ := h
  simp only [Option.some.injEq] at h
  subst h
  exact ⟨hrange t4, hrange t6⟩


end Climate
